import Mathlib

/-!
# vmware-vault-backend: token path and configuration path

A shallow embedding of `access_token_path.go` and `path_config.go`.

* Go strings and byte slices that carry data (region, URLs, credentials, tokens)
  are lists of octets (`Bytes`); literal texts (keys, messages, log lines) are
  Lean strings.
* Calls into libraries whose result depends on the outside world (randomness,
  the clock, the network, the storage) are fields of a `World` record: one run
  of a handler is a pure function of the request and of that record.
* A handler returns its Go result together with the list of effects it
  performed, in order (`Effect`), so that "this call was never made" is a
  statement about that list.
-/

namespace VmwareVault

/-- An octet. -/
abbrev Byte := Fin 256

/-- Go `[]byte`, and Go `string` where the bytes matter. -/
abbrev Bytes := List Byte

/-- Go `byte(i)`: conversion of an integer to an octet keeps the low 8 bits. -/
def byteOf (i : Nat) : Byte := ⟨i % 256, Nat.mod_lt _ (by decide)⟩

/-! ## `encoding/asn1`: the marshalling side used for the SAN value -/

/-- Go `asn1.lengthLength`: `numBytes = 1; for i > 255 { numBytes++; i >>= 8 }`. -/
def lengthLength (i : Nat) : Nat :=
  if i > 255 then lengthLength (i >>> 8) + 1 else 1
termination_by i
decreasing_by
  simp only [Nat.shiftRight_eq_div_pow]
  omega

/-- The loop of Go `asn1.appendLength`:
`for ; n > 0; n-- { dst = append(dst, byte(i>>uint((n-1)*8))) }`. -/
def appendLengthLoop (dst : Bytes) (i : Nat) : Nat → Bytes
  | 0 => dst
  | n + 1 => appendLengthLoop (dst ++ [byteOf (i >>> (n * 8))]) i n

/-- Go `asn1.appendLength`. -/
def appendLength (dst : Bytes) (i : Nat) : Bytes :=
  appendLengthLoop dst i (lengthLength i)

/-- Go `asn1.base128IntLength`, the loop `for i := n; i > 0; i >>= 7 { l++ }`. -/
def base128IntLengthLoop (i : Nat) : Nat :=
  if i > 0 then base128IntLengthLoop (i >>> 7) + 1 else 0
termination_by i
decreasing_by
  simp only [Nat.shiftRight_eq_div_pow]
  omega

/-- Go `asn1.base128IntLength`. -/
def base128IntLength (n : Nat) : Nat :=
  if n = 0 then 1 else base128IntLengthLoop n

/-- The loop of Go `asn1.appendBase128Int`, `i` running from `l - 1` down to `0`. -/
def appendBase128IntLoop (dst : Bytes) (n : Nat) : Nat → Bytes
  | 0 => dst
  | i + 1 =>
    let o := (n >>> (i * 7)) % 256 &&& 0x7f
    let o := if i ≠ 0 then o ||| 0x80 else o
    appendBase128IntLoop (dst ++ [byteOf o]) n i

/-- Go `asn1.appendBase128Int`. -/
def appendBase128Int (dst : Bytes) (n : Nat) : Bytes :=
  appendBase128IntLoop dst n (base128IntLength n)

/-- Go `asn1.tagAndLength`. -/
structure TagAndLength where
  «class» : Nat
  tag : Nat
  length : Nat
  isCompound : Bool
  deriving DecidableEq, Repr

/-- Go `asn1.appendTagAndLength`. -/
def appendTagAndLength (dst : Bytes) (t : TagAndLength) : Bytes :=
  let b := (t.class <<< 6) % 256
  let b := if t.isCompound then b ||| 0x20 else b
  let dst :=
    if t.tag ≥ 31 then
      appendBase128Int (dst ++ [byteOf (b ||| 0x1f)]) t.tag
    else
      dst ++ [byteOf (b ||| t.tag % 256)]
  if t.length ≥ 128 then
    let l := lengthLength t.length
    appendLength (dst ++ [byteOf (0x80 ||| l % 256)]) t.length
  else
    dst ++ [byteOf t.length]

/-- Go `asn1.RawValue` (without `FullBytes`, which the source leaves empty). -/
structure RawValue where
  «Class» : Nat
  Tag : Nat
  IsCompound : Bool
  Bytes : Bytes
  deriving DecidableEq, Repr

/-- Go `asn1.makeField` on a `RawValue` with empty `FullBytes`: the tag and
length octets followed by `Bytes`. -/
def marshalRawValue (rv : RawValue) : Bytes :=
  appendTagAndLength [] ⟨rv.Class, rv.Tag, rv.Bytes.length, rv.IsCompound⟩ ++ rv.Bytes

/-- Go `asn1.Marshal` on a `[]asn1.RawValue`: a universal, constructed
SEQUENCE (tag 16) whose body is the concatenation of the elements. For this
input type the Go function has no failing path, so the result is always `ok`. -/
def asn1MarshalRawValues (vs : List RawValue) : Except String Bytes :=
  let body := (vs.map marshalRawValue).flatten
  .ok (appendTagAndLength [] ⟨0, 16, body.length, true⟩ ++ body)

/-! ## DER reading (X.690 definite-length rules), the inverse the SAN claim
is measured against -/

/-- Read `n` big-endian length octets. A prefix whose value is still zero is a
superfluous leading zero and is refused. -/
def derReadBigEndian : Nat → Nat → Bytes → Option (Nat × Bytes)
  | 0, acc, bs => some (acc, bs)
  | _ + 1, _, [] => none
  | n + 1, acc, b :: bs =>
    let acc := acc * 256 + b.val
    if acc = 0 then none else derReadBigEndian n acc bs

/-- Read the length octets: short form below 128, otherwise the long form in
minimal encoding; the indefinite form is refused. -/
def derReadLength : Bytes → Option (Nat × Bytes)
  | [] => none
  | b :: bs =>
    if b.val < 128 then some (b.val, bs)
    else if b.val = 128 then none
    else
      match derReadBigEndian (b.val - 128) 0 bs with
      | none => none
      | some (len, rest) => if len < 128 then none else some (len, rest)

/-- Read one element in low-tag-number form: identifier octet, length, and
exactly that many content octets. Returns the header, the content and the
octets that follow the element. -/
def derReadElement : Bytes → Option (TagAndLength × Bytes × Bytes)
  | [] => none
  | b :: bs =>
    if b.val % 32 = 31 then none
    else
      match derReadLength bs with
      | none => none
      | some (len, rest) =>
        if rest.length < len then none
        else some (⟨b.val / 64, b.val % 32, len, (b.val / 32) % 2 = 1⟩,
                   rest.take len, rest.drop len)

/-- Decode a Subject Alternative Name value that holds exactly one
context-specific, primitive, tag-2 name: a SEQUENCE with nothing after it,
whose body is that single element. Returns the content of the element. -/
def decodeSubjectAltName (value : Bytes) : Option Bytes :=
  match derReadElement value with
  | some (⟨0, 16, _, true⟩, body, []) =>
    match derReadElement body with
    | some (⟨2, 2, _, false⟩, name, []) => some name
    | _ => none
  | _ => none

/-- The length octets written by `appendTagAndLength`. -/
def lengthOctets (len : Nat) : Bytes :=
  if len ≥ 128 then appendLength [byteOf (0x80 ||| lengthLength len % 256)] len
  else [byteOf len]


/-! ## `time` -/

/-- Go `time.Duration`: a count of nanoseconds. -/
abbrev Duration := Int

/-- Go `time.Second`. -/
def Second : Duration := 1000000000

/-- Go `time.Hour`. -/
def Hour : Duration := 3600 * Second

/-- Go `time.Time`, without the monotonic reading: the instant as seconds since
1970-01-01T00:00:00Z and nanoseconds within the second, and the offset of its
location in seconds east of UTC (0 for `time.UTC`). Go stores the seconds in an
`int64` and saturates 292 billion years away from the epoch; the embedding keeps
them unbounded. -/
structure Time where
  sec : Int
  nsec : Fin 1000000000
  offset : Int
  deriving DecidableEq, Repr

/-- Go `Time.Add`: `dsec := d / 1e9; nsec := t.nsec() + d % 1e9`, with Go's
truncating division, then one carry or borrow to bring `nsec` back into
`[0, 1e9)`. The location is kept. -/
def Time.Add (t : Time) (d : Duration) : Time :=
  let dsec := Int.tdiv d 1000000000
  let nsec : Int := t.nsec.val + Int.tmod d 1000000000
  if nsec ≥ 1000000000 then
    ⟨t.sec + (dsec + 1), Fin.ofNat (nsec - 1000000000).toNat, t.offset⟩
  else if nsec < 0 then
    ⟨t.sec + (dsec - 1), Fin.ofNat (nsec + 1000000000).toNat, t.offset⟩
  else
    ⟨t.sec + dsec, Fin.ofNat nsec.toNat, t.offset⟩

/-- Go `Time.Equal`: the same instant, whatever the location. -/
def Time.Equal (t u : Time) : Bool :=
  t.sec == u.sec && t.nsec == u.nsec

/-- Go `Time.Before`. -/
def Time.Before (t u : Time) : Bool :=
  t.sec < u.sec || (t.sec == u.sec && t.nsec.val < u.nsec.val)

/-- Conversion to Go `int64`: wrap-around modulo `2^64`. -/
def wrapInt64 (i : Int) : Int :=
  (i + 2 ^ 63) % 2 ^ 64 - 2 ^ 63

/-- Go `Time.Sub`:
`d := Duration(t.sec()-u.sec())*Second + Duration(t.nsec()-u.nsec())` in `int64`
arithmetic, kept when `u.Add(d).Equal(t)`, else saturated to the minimum or
maximum duration. -/
def Time.Sub (t u : Time) : Duration :=
  let d := wrapInt64 (wrapInt64 (wrapInt64 (t.sec - u.sec) * Second)
            + ((t.nsec.val : Int) - (u.nsec.val : Int)))
  if (u.Add d).Equal t then d
  else if t.Before u then -(2 ^ 63)
  else 2 ^ 63 - 1

/-! ## Constants of `access_token_path.go` -/

/-- Source: `tokenDuration = 72 * time.Hour`. -/
def tokenDuration : Duration := 72 * Hour

/-- Source: `errMessage = "Failed to acquire token"`. -/
def errMessage : String := "Failed to acquire token"

/-! ## `crypto/rsa`, `crypto/x509`, `encoding/pem` data -/

/-- Go `rsa.PublicKey`. -/
structure PublicKey where
  N : Nat
  E : Nat
  deriving DecidableEq, Repr

/-- Go `rsa.PrivateKey` (public part and private exponent). -/
structure PrivateKey where
  PublicKey : PublicKey
  D : Nat
  deriving DecidableEq, Repr

/-- Go `(*rsa.PrivateKey).Public`. -/
def PrivateKey.Public (key : PrivateKey) : VmwareVault.PublicKey := key.PublicKey

/-- Go `pem.Block` (type and bytes; the source sets no headers). -/
structure PemBlock where
  «Type» : String
  Bytes : Bytes
  deriving DecidableEq, Repr

/-- Go `pkix.Extension`. -/
structure Extension where
  Id : List Nat
  Critical : Bool
  Value : Bytes
  deriving DecidableEq, Repr

/-- Go `pkix.AttributeTypeAndValue` with a string value. -/
structure AttributeTypeAndValue where
  «Type» : List Nat
  Value : String
  deriving DecidableEq, Repr

/-- Go `pkix.Name`, the fields the source sets. `Organization` carries the
region, a Go string of arbitrary bytes. -/
structure Name where
  CommonName : String
  Country : List String
  Province : List String
  Organization : List Bytes
  OrganizationalUnit : List String
  Locality : List String
  ExtraNames : List AttributeTypeAndValue
  deriving DecidableEq, Repr

/-- Go `x509.KeyUsage` bits. -/
def KeyUsageDigitalSignature : Nat := 1 <<< 0
/-- Go `x509.KeyUsageContentCommitment`. -/
def KeyUsageContentCommitment : Nat := 1 <<< 1
/-- Go `x509.KeyUsageKeyEncipherment`. -/
def KeyUsageKeyEncipherment : Nat := 1 <<< 2
/-- Go `x509.KeyUsageDataEncipherment`. -/
def KeyUsageDataEncipherment : Nat := 1 <<< 3
/-- Go `x509.ExtKeyUsageClientAuth` (third value of the enumeration). -/
def ExtKeyUsageClientAuth : Nat := 2

/-- Go `x509.Certificate`, the fields of the template the source fills in.
`SerialNumber` is a `*big.Int`: `none` is the nil pointer. -/
structure Certificate where
  Subject : Name
  KeyUsage : Nat
  ExtKeyUsage : List Nat
  SerialNumber : Option Nat
  NotBefore : Time
  NotAfter : Time
  ExtraExtensions : List Extension
  IsCA : Bool
  SubjectKeyId : Bytes
  AuthorityKeyId : Bytes
  deriving DecidableEq, Repr

/-- The calls of `generateSelfSignedCertificate` whose result is not a function
of the region: randomness, the clock and the crypto library. One record is one
run; each field is the result the call gives in that run. -/
structure CryptoWorld where
  /-- `rsa.GenerateKey(rand.Reader, 2048)`. -/
  rsaGenerateKey : Except String PrivateKey
  /-- `rand.Int(rand.Reader, max)`; on error Go returns a nil number. -/
  randInt : Nat → Except String Nat
  /-- `time.Now()`. -/
  timeNow : Time
  /-- `x509.MarshalPKIXPublicKey`. -/
  marshalPKIXPublicKey : PublicKey → Except String Bytes
  /-- `sha256.Sum256`. -/
  sha256Sum256 : Bytes → Bytes
  /-- `x509.CreateCertificate(rand.Reader, template, parent, pub, priv)` on a
  template that has a serial number. -/
  createCertificate : Certificate → Certificate → PublicKey → PrivateKey → Except String Bytes
  /-- `x509.MarshalPKCS1PrivateKey`. -/
  marshalPKCS1PrivateKey : PrivateKey → Bytes
  /-- `rsa.SignPKCS1v15(rand.Reader, key, crypto.SHA256, hashed)`. -/
  signPKCS1v15 : PrivateKey → Bytes → Except String Bytes

/-- Go `x509.CreateCertificate`: a template without serial number is refused
(`x509: no SerialNumber given`) before anything else is done. -/
def x509CreateCertificate (w : CryptoWorld) (template parent : Certificate)
    (pub : PublicKey) (priv : PrivateKey) : Except String Bytes :=
  match template.SerialNumber with
  | none => .error "x509: no SerialNumber given"
  | some _ => w.createCertificate template parent pub priv

/-- The four named results of `generateSelfSignedCertificate`; `none` is Go's
nil. -/
structure CertResult where
  certPEM : Option PemBlock
  keyPem : Option PemBlock
  sign : Option Bytes
  err : Option String
  deriving DecidableEq, Repr

/-- The two-octet literal (an opening and a closing brace) that the source
hashes and signs. -/
def signedPayload : Bytes := [byteOf 0x7b, byteOf 0x7d]

/-- Source lines 121-179 of `generateSelfSignedCertificate`: everything up to
and including the certificate template. `error e` is the bare `return` with
`err = e` and the other named results still nil. The error of `rand.Int` is
overwritten by the next assignment to `err` and never looked at, so a failed
`rand.Int` leaves a nil serial number and the run goes on. -/
def buildTemplate (w : CryptoWorld) (region : Bytes) :
    Except String (PrivateKey × Certificate) :=
  match w.rsaGenerateKey with
  | .error e => .error e
  | .ok key =>
    let serialNumberLimit := 1 <<< 128
    let serialNumber : Option Nat :=
      match w.randInt serialNumberLimit with
      | .ok n => some n
      | .error _ => none
    match asn1MarshalRawValues [{ Tag := 2, «Class» := 2, IsCompound := false, Bytes := region }] with
    | .error e => .error e
    | .ok san =>
      let notBefore := w.timeNow
      let notAfter := notBefore.Add tokenDuration
      let extSubjectAltName : Extension := { Id := [2, 5, 29, 17], Critical := false, Value := san }
      let vsphereDomainComponent : AttributeTypeAndValue :=
        { «Type» := [0, 9, 2342, 19200300, 100, 1, 25], Value := "vsphere" }
      let localDomainComponent : AttributeTypeAndValue :=
        { «Type» := [0, 9, 2342, 19200300, 100, 1, 25], Value := "local" }
      match w.marshalPKIXPublicKey key.Public with
      | .error e => .error e
      | .ok publicKey =>
        let hash_data := w.sha256Sum256 publicKey
        .ok (key,
          { Subject :=
              { CommonName := "CA"
                Country := ["US"]
                Province := ["California"]
                Organization := [region]
                OrganizationalUnit := ["VMware Engineering"]
                Locality := ["Palo Alto"]
                ExtraNames := [vsphereDomainComponent, localDomainComponent] }
            KeyUsage := KeyUsageDigitalSignature ||| KeyUsageKeyEncipherment
              ||| KeyUsageContentCommitment ||| KeyUsageDataEncipherment
            ExtKeyUsage := [ExtKeyUsageClientAuth]
            SerialNumber := serialNumber
            NotBefore := notBefore
            NotAfter := notAfter
            ExtraExtensions := [extSubjectAltName]
            IsCA := true
            SubjectKeyId := hash_data
            AuthorityKeyId := hash_data })

/-- Source `generateSelfSignedCertificate`. Lines 181-195: create the
certificate from the template (parent = template, self-signed), then assign
`certPEM` and `keyPem`, then sign; every `if err != nil { return }` returns the
named results as they stand at that point. -/
def generateSelfSignedCertificate (w : CryptoWorld) (region : Bytes) : CertResult :=
  match buildTemplate w region with
  | .error e => { certPEM := none, keyPem := none, sign := none, err := some e }
  | .ok (key, template) =>
    match x509CreateCertificate w template template key.Public key with
    | .error e => { certPEM := none, keyPem := none, sign := none, err := some e }
    | .ok derBytes =>
      let randBytesHash := w.sha256Sum256 signedPayload
      let certPEM : PemBlock := { «Type» := "CERTIFICATE", Bytes := derBytes }
      let keyPem : PemBlock := { «Type» := "RSA PRIVATE KEY", Bytes := w.marshalPKCS1PrivateKey key }
      match w.signPKCS1v15 key randBytesHash with
      | .error e => { certPEM := some certPEM, keyPem := some keyPem, sign := none, err := some e }
      | .ok sign => { certPEM := some certPEM, keyPem := some keyPem, sign := some sign, err := none }

/-! ## `hash/crc32` (IEEE polynomial), as used by `compress/gzip` -/

/-- Go `crc32.IEEE`, the reversed polynomial. -/
def crc32IEEE : Nat := 0xedb88320

/-- One round of the inner loop of Go `crc32.simplePopulateTable`. -/
def crc32TableStep (crc : Nat) : Nat :=
  if crc &&& 1 = 1 then (crc >>> 1) ^^^ crc32IEEE else crc >>> 1

/-- Entry `i` of the IEEE table: eight rounds starting from `i`. -/
def crc32Table (i : Nat) : Nat :=
  crc32TableStep^[8] i

/-- Go `crc32.simpleUpdate` as called by `crc32.Update` with the IEEE table, on
`uint32` values: `crc = ^crc; for v in p { crc = tab[byte(crc)^v] ^ (crc >> 8) };
return ^crc`. -/
def crc32Update (crc : Nat) (p : Bytes) : Nat :=
  (p.foldl (fun c v => crc32Table ((c % 256) ^^^ v.val) ^^^ (c >>> 8))
    ((crc ^^^ 0xffffffff) % 2 ^ 32) ^^^ 0xffffffff) % 2 ^ 32

/-- One bit of the CRC-32 shift register (reflected form): the register moves
one place down and, when the bit that falls out is set, the polynomial
`x^32 + x^26 + ... + 1` (reflected: `0xEDB88320`) is added. -/
def crc32Shift (reg : Nat) : Nat :=
  if reg % 2 = 1 then reg / 2 ^^^ 0xEDB88320 else reg / 2

/-- Feed one octet to the register, bit by bit. -/
def crc32Feed (reg : Nat) (b : Byte) : Nat :=
  crc32Shift (crc32Shift (crc32Shift (crc32Shift (crc32Shift (crc32Shift (crc32Shift
    (crc32Shift (reg ^^^ b.val))))))))

/-- The CRC-32 of ISO 3309 and RFC 1952, as the format defines it and
independently of Go's table: register preset to all ones, octets fed least
significant bit first, result complemented. -/
def crc32Spec (data : Bytes) : Nat :=
  data.foldl crc32Feed 0xFFFFFFFF ^^^ 0xFFFFFFFF

/-- Go `binary.LittleEndian.PutUint32`. -/
def putUint32LE (v : Nat) : Bytes :=
  [byteOf v, byteOf (v >>> 8), byteOf (v >>> 16), byteOf (v >>> 24)]

/-- Go `binary.LittleEndian.Uint32`. -/
def uint32LE (b0 b1 b2 b3 : Byte) : Nat :=
  b0.val ||| b1.val <<< 8 ||| b2.val <<< 16 ||| b3.val <<< 24

/-! ## `compress/flate` and `compress/gzip`

The DEFLATE compressor of `compress/flate` is not modelled bit by bit. It is a
state machine driven by `Write`, `Flush` and `Close`; what it hands to the
underlying writer during a call is a function of the calls made so far
(`FlateWriter`). What it must emit is fixed by the format: a stream that the
inflater of RFC 1951, defined below in full, reads back. The gzip container
around it (header, CRC-32, length) is modelled in full. -/

/-- A call on a `flate.Writer`. -/
inductive FlateOp where
  | write (p : Bytes)
  | flush
  | close
  deriving DecidableEq, Repr

/-- The compressor behind a `gzip.Writer`. -/
structure FlateWriter where
  /-- Bytes written to the underlying writer by the last call of the history
  (the calls made on the compressor so far, oldest first), or the error that
  call returns. -/
  emit : List FlateOp → Except String Bytes

/-- What the compressor has emitted over a whole history, when no call failed. -/
def FlateWriter.stream (flate : FlateWriter) (ops : List FlateOp) : Option Bytes :=
  (List.range ops.length).foldl
    (fun acc i =>
      match acc, flate.emit (ops.take (i + 1)) with
      | some bs, .ok out => some (bs ++ out)
      | _, _ => none)
    (some [])

/-! ## DEFLATE (RFC 1951): the inflater

A reader of the compressed data format, independent of any compressor: bits are
taken least significant first, Huffman codes are the canonical codes of the
code lengths, and the three block types (stored, fixed codes, dynamic codes)
are all read. -/

/-- The reading position: the bits that remain of the octet in progress (least
significant first) and the octets after it. -/
structure BitReader where
  bits : List Bool
  bytes : Bytes
  deriving DecidableEq, Repr

/-- Take one bit. -/
def BitReader.readBit (r : BitReader) : Option (Bool × BitReader) :=
  match r.bits with
  | b :: bs => some (b, { bits := bs, bytes := r.bytes })
  | [] =>
    match r.bytes with
    | [] => none
    | x :: xs =>
      some (x.val.testBit 0,
        { bits := [x.val.testBit 1, x.val.testBit 2, x.val.testBit 3, x.val.testBit 4,
                   x.val.testBit 5, x.val.testBit 6, x.val.testBit 7], bytes := xs })

/-- Take `n` bits as a number, the first bit read being the least significant. -/
def BitReader.readBits : Nat → BitReader → Option (Nat × BitReader)
  | 0, r => some (0, r)
  | n + 1, r =>
    match r.readBit with
    | none => none
    | some (b, r) =>
      match BitReader.readBits n r with
      | none => none
      | some (v, r) => some (b.toNat + 2 * v, r)

/-- A canonical Huffman code: how many codes there are of each length from 0 to
15, and the symbols in the order of their codes (by length, then by value). -/
structure Huffman where
  count : List Nat
  symbol : List Nat
  deriving DecidableEq, Repr

/-- The codes still unassigned after the lengths 1 to 15 have taken theirs out
of the `2^len` available at each length; `none` when some length takes more
than there are (an over-subscribed set of lengths). -/
def huffmanLeft (count : List Nat) : Option Nat :=
  (List.range 15).foldl
    (fun left i =>
      match left with
      | none => none
      | some l => if 2 * l < count.getD (i + 1) 0 then none else some (2 * l - count.getD (i + 1) 0))
    (some 1)

/-- The canonical code of a list of code lengths (length 0: the symbol is not
used). -/
def huffmanOf (lengths : List Nat) : Huffman :=
  { count := (List.range 16).map (fun len => lengths.count len)
    symbol := (List.range 15).flatMap (fun i =>
      (List.range lengths.length).filter (fun s => lengths.getD s 0 == i + 1)) }

/-- Build the code of a list of code lengths read from the stream.
Over-subscribed lengths are refused; an incomplete code is accepted only when
`allowIncomplete` is set and it has at most one code, of length 1. -/
def constructHuffman (lengths : List Nat) (allowIncomplete : Bool) : Option Huffman :=
  let h := huffmanOf lengths
  match huffmanLeft h.count with
  | none => none
  | some 0 => some h
  | some _ =>
    if allowIncomplete && lengths.length == h.count.getD 0 0 + h.count.getD 1 0 then some h
    else none

/-- Read one symbol: bits are appended to the code, most significant first,
until the code falls among the codes of the current length. `n` is the number
of lengths still to try, `len` the current length, `first` the first code of
that length and `index` the position of its symbol. -/
def decodeSymbolLoop (h : Huffman) :
    Nat → Nat → Nat → Nat → Nat → BitReader → Option (Nat × BitReader)
  | 0, _, _, _, _, _ => none
  | n + 1, len, code, first, index, r =>
    match r.readBit with
    | none => none
    | some (b, r) =>
      let code := code + b.toNat
      let count := h.count.getD len 0
      if code < first + count then
        match h.symbol.get? (index + (code - first)) with
        | none => none
        | some s => some (s, r)
      else
        decodeSymbolLoop h n (len + 1) (2 * code) (2 * (first + count)) (index + count) r

/-- Read one symbol of the code `h`. -/
def decodeSymbol (h : Huffman) (r : BitReader) : Option (Nat × BitReader) :=
  decodeSymbolLoop h 15 1 0 0 0 r

/-- Base lengths of the length symbols 257 to 285. -/
def lengthBase : List Nat :=
  [3, 4, 5, 6, 7, 8, 9, 10, 11, 13, 15, 17, 19, 23, 27, 31, 35, 43, 51, 59, 67, 83, 99, 115,
   131, 163, 195, 227, 258]

/-- Extra bits of the length symbols 257 to 285. -/
def lengthExtra : List Nat :=
  [0, 0, 0, 0, 0, 0, 0, 0, 1, 1, 1, 1, 2, 2, 2, 2, 3, 3, 3, 3, 4, 4, 4, 4, 5, 5, 5, 5, 0]

/-- Base distances of the distance symbols 0 to 29. -/
def distBase : List Nat :=
  [1, 2, 3, 4, 5, 7, 9, 13, 17, 25, 33, 49, 65, 97, 129, 193, 257, 385, 513, 769, 1025, 1537,
   2049, 3073, 4097, 6145, 8193, 12289, 16385, 24577]

/-- Extra bits of the distance symbols 0 to 29. -/
def distExtra : List Nat :=
  [0, 0, 0, 0, 1, 1, 2, 2, 3, 3, 4, 4, 5, 5, 6, 6, 7, 7, 8, 8, 9, 9, 10, 10, 11, 11, 12, 12,
   13, 13]

/-- Copy `len` octets, one at a time, from `dist` octets back in the output. -/
def copyMatch : Nat → Nat → Bytes → Option Bytes
  | 0, _, out => some out
  | len + 1, dist, out =>
    if dist = 0 ∨ out.length < dist then none
    else
      match out.get? (out.length - dist) with
      | none => none
      | some b => copyMatch len dist (out ++ [b])

/-- Read the symbols of one block with the given literal/length and distance
codes, up to the end-of-block symbol 256. -/
def inflateCodes (lencode distcode : Huffman) :
    Nat → BitReader → Bytes → Option (BitReader × Bytes)
  | 0, _, _ => none
  | fuel + 1, r, out =>
    match decodeSymbol lencode r with
    | none => none
    | some (sym, r) =>
      if sym < 256 then inflateCodes lencode distcode fuel r (out ++ [byteOf sym])
      else if sym = 256 then some (r, out)
      else
        match lengthBase.get? (sym - 257), lengthExtra.get? (sym - 257) with
        | some lbase, some lext =>
          match r.readBits lext with
          | none => none
          | some (lx, r) =>
            match decodeSymbol distcode r with
            | none => none
            | some (dsym, r) =>
              match distBase.get? dsym, distExtra.get? dsym with
              | some dbase, some dext =>
                match r.readBits dext with
                | none => none
                | some (dx, r) =>
                  match copyMatch (lbase + lx) (dbase + dx) out with
                  | none => none
                  | some out => inflateCodes lencode distcode fuel r out
              | _, _ => none
        | _, _ => none

/-- The code lengths of the fixed literal/length code. -/
def fixedLiteralLengths : List Nat :=
  List.replicate 144 8 ++ List.replicate 112 9 ++ List.replicate 24 7 ++ List.replicate 8 8

/-- The code lengths of the fixed distance code. -/
def fixedDistanceLengths : List Nat := List.replicate 30 5

/-- The order in which the lengths of the code length code are stored. -/
def codeLengthOrder : List Nat :=
  [16, 17, 18, 0, 8, 7, 9, 6, 10, 5, 11, 4, 12, 3, 13, 2, 14, 1, 15]

/-- Read `n` three-bit lengths of the code length code. -/
def readCodeLengthLengths : Nat → BitReader → Option (List Nat × BitReader)
  | 0, r => some ([], r)
  | n + 1, r =>
    match r.readBits 3 with
    | none => none
    | some (v, r) =>
      match readCodeLengthLengths n r with
      | none => none
      | some (vs, r) => some (v :: vs, r)

/-- Read the `total` literal/length and distance code lengths, which are
themselves coded with the code `h`; symbols 16, 17 and 18 repeat. -/
def readCodeLengths (h : Huffman) (total : Nat) :
    Nat → BitReader → List Nat → Option (List Nat × BitReader)
  | 0, _, _ => none
  | fuel + 1, r, lengths =>
    if lengths.length = total then some (lengths, r)
    else
      match decodeSymbol h r with
      | none => none
      | some (sym, r) =>
        if sym < 16 then readCodeLengths h total fuel r (lengths ++ [sym])
        else
          let extra := if sym = 16 then 2 else if sym = 17 then 3 else 7
          let base := if sym = 18 then 11 else 3
          match r.readBits extra with
          | none => none
          | some (x, r) =>
            let rep := base + x
            if sym = 16 ∧ lengths = [] then none
            else if lengths.length + rep > total then none
            else
              let v := if sym = 16 then lengths.getLastD 0 else 0
              readCodeLengths h total fuel r (lengths ++ List.replicate rep v)

/-- Read a block with dynamic codes: the three counts, the code length code, the
code lengths, then the symbols. -/
def inflateDynamic (fuel : Nat) (r : BitReader) (out : Bytes) : Option (BitReader × Bytes) :=
  match r.readBits 5 with
  | none => none
  | some (hlit, r) =>
    match r.readBits 5 with
    | none => none
    | some (hdist, r) =>
      match r.readBits 4 with
      | none => none
      | some (hclen, r) =>
        let nlen := hlit + 257
        let ndist := hdist + 1
        let ncode := hclen + 4
        if nlen > 286 ∨ ndist > 30 then none
        else
          match readCodeLengthLengths ncode r with
          | none => none
          | some (cls, r) =>
            let clLengths := (List.range 19).map (fun s =>
              match codeLengthOrder.indexOf? s with
              | some i => cls.getD i 0
              | none => 0)
            match constructHuffman clLengths false with
            | none => none
            | some clcode =>
              match readCodeLengths clcode (nlen + ndist) (nlen + ndist + 1) r [] with
              | none => none
              | some (lengths, r) =>
                if lengths.getD 256 0 = 0 then none
                else
                  match constructHuffman (lengths.take nlen) true,
                      constructHuffman (lengths.drop nlen) true with
                  | some lencode, some distcode => inflateCodes lencode distcode fuel r out
                  | _, _ => none

/-- Read a stored block: the rest of the octet in progress is skipped, then come
the length, its complement, and that many octets. -/
def inflateStored (r : BitReader) (out : Bytes) : Option (BitReader × Bytes) :=
  match r.bytes with
  | l0 :: l1 :: n0 :: n1 :: rest =>
    let len := l0.val + 256 * l1.val
    if n0.val + l0.val = 255 ∧ n1.val + l1.val = 255 ∧ len ≤ rest.length then
      some ({ bits := [], bytes := rest.drop len }, out ++ rest.take len)
    else none
  | _ => none

/-- Read blocks up to and including the final one. -/
def inflateBlocks : Nat → Nat → BitReader → Bytes → Option (BitReader × Bytes)
  | 0, _, _, _ => none
  | blocks + 1, fuel, r, out =>
    match r.readBits 1 with
    | none => none
    | some (final, r) =>
      match r.readBits 2 with
      | none => none
      | some (type, r) =>
        let block :=
          if type = 0 then inflateStored r out
          else if type = 1 then
            inflateCodes (huffmanOf fixedLiteralLengths) (huffmanOf fixedDistanceLengths)
              fuel r out
          else if type = 2 then inflateDynamic fuel r out
          else none
        match block with
        | none => none
        | some (r, out) =>
          if final = 1 then some (r, out) else inflateBlocks blocks fuel r out

/-- Inflate one DEFLATE stream from the front of the input: the data, and the
octets that follow the octet in which the final block ends. -/
def inflate (input : Bytes) : Option (Bytes × Bytes) :=
  match inflateBlocks (input.length + 1) (8 * input.length + 1)
      { bits := [], bytes := input } [] with
  | none => none
  | some (r, out) => some (out, r.bytes)

/-- The contract of `compress/flate` for one piece of data: written in one
`Write`, then flushed and closed, what the compressor emitted is a DEFLATE
stream that inflates to the data, whatever follows it. -/
def FlateWriter.RoundTrips (flate : FlateWriter) (data : Bytes) : Prop :=
  ∃ s, flate.stream [.write data, .flush, .close] = some s ∧
    ∀ rest, inflate (s ++ rest) = some (data, rest)

/-- Go `gzip.Writer` writing into a `bytes.Buffer`, with the default header
fields of `gzip.NewWriter` (no name, comment, extra or modification time,
`OS = 255`, default compression level). -/
structure GzipWriter where
  wroteHeader : Bool
  closed : Bool
  err : Option String
  digest : Nat
  size : Nat
  /-- The calls made so far on the compressor. -/
  compressor : List FlateOp
  /-- The contents of the `bytes.Buffer` behind the writer. -/
  buf : Bytes
  deriving DecidableEq, Repr

/-- Go `gzip.NewWriter(&buf)` on an empty buffer. -/
def gzipNewWriter : GzipWriter :=
  { wroteHeader := false, closed := false, err := none, digest := 0, size := 0,
    compressor := [], buf := [] }

/-- The ten header octets `gzip.Writer.Write` emits first: magic `1f 8b`,
method 8 (deflate), no flags, zero modification time, no extra flags, OS 255. -/
def gzipHeader : Bytes :=
  [byteOf 0x1f, byteOf 0x8b, byteOf 8, byteOf 0, byteOf 0, byteOf 0, byteOf 0, byteOf 0,
   byteOf 0, byteOf 255]

/-- Make one call on the compressor and append what it emits to the buffer;
the error, if any, becomes the sticky `err` of the writer. -/
def GzipWriter.compress (flate : FlateWriter) (z : GzipWriter) (op : FlateOp) : GzipWriter :=
  let ops := z.compressor ++ [op]
  match flate.emit ops with
  | .ok out => { z with compressor := ops, buf := z.buf ++ out }
  | .error e => { z with compressor := ops, err := some e }

/-- Go `(*gzip.Writer).Write`: the header is written lazily on the first call;
then the size and the CRC-32 are updated and the data goes to the compressor.
Returns the writer and the returned error. -/
def GzipWriter.Write (flate : FlateWriter) (z : GzipWriter) (p : Bytes) :
    GzipWriter × Option String :=
  match z.err with
  | some e => (z, some e)
  | none =>
    let z := if z.wroteHeader then z
             else { z with wroteHeader := true, buf := z.buf ++ gzipHeader }
    let z := { z with size := (z.size + p.length) % 2 ^ 32, digest := crc32Update z.digest p }
    let z := z.compress flate (.write p)
    (z, z.err)

/-- Go `(*gzip.Writer).Flush`. -/
def GzipWriter.Flush (flate : FlateWriter) (z : GzipWriter) : GzipWriter × Option String :=
  match z.err with
  | some e => (z, some e)
  | none =>
    if z.closed then (z, none)
    else
      let z := if z.wroteHeader then z else (z.Write flate []).1
      match z.err with
      | some e => (z, some e)
      | none =>
        let z := z.compress flate .flush
        (z, z.err)

/-- Go `(*gzip.Writer).Close`: closes the compressor, then appends the CRC-32
and the size, both little-endian `uint32`. -/
def GzipWriter.Close (flate : FlateWriter) (z : GzipWriter) : GzipWriter × Option String :=
  match z.err with
  | some e => (z, some e)
  | none =>
    if z.closed then (z, none)
    else
      let z := { z with closed := true }
      let z := if z.wroteHeader then z else (z.Write flate []).1
      match z.err with
      | some e => (z, some e)
      | none =>
        let z := z.compress flate .close
        match z.err with
        | some e => (z, some e)
        | none =>
          let z := { z with buf := z.buf ++ putUint32LE z.digest ++ putUint32LE z.size }
          (z, z.err)

/-- Reading a gzip member (RFC 1952) that has no optional header fields:
magic, method 8, flags 0, six octets of time, extra flags and OS that are
skipped, one DEFLATE stream read by `inflate`, then exactly the CRC-32 of the
data and its length modulo `2^32`, and nothing after them. -/
def gunzip : Bytes → Option Bytes
  | id1 :: id2 :: cm :: flg :: _ :: _ :: _ :: _ :: _ :: _ :: body =>
    if id1.val = 0x1f ∧ id2.val = 0x8b ∧ cm.val = 8 ∧ flg.val = 0 then
      match inflate body with
      | some (data, [c0, c1, c2, c3, s0, s1, s2, s3]) =>
        if uint32LE c0 c1 c2 c3 = crc32Spec data
            ∧ uint32LE s0 s1 s2 s3 = data.length % 2 ^ 32 then some data
        else none
      | _ => none
    else none
  | _ => none

/-! ## `encoding/base64`, `StdEncoding` -/

/-- The standard alphabet (RFC 4648 section 4). -/
def encodeStd : List Char :=
  "ABCDEFGHIJKLMNOPQRSTUVWXYZabcdefghijklmnopqrstuvwxyz0123456789+/".toList

/-- Go `enc.encode[i]`. -/
def base64Char (i : Nat) : Char := encodeStd.getD i 'A'

/-- Go `base64.StdPadding`. -/
def padChar : Char := '='

/-- Go `(*Encoding).Encode` for `StdEncoding`: three octets give four
characters; a remainder of one or two octets gives two or three characters and
padding. -/
def base64Encode : Bytes → List Char
  | a :: b :: c :: rest =>
    let val := a.val <<< 16 ||| b.val <<< 8 ||| c.val
    base64Char (val >>> 18 &&& 0x3f) :: base64Char (val >>> 12 &&& 0x3f)
      :: base64Char (val >>> 6 &&& 0x3f) :: base64Char (val &&& 0x3f) :: base64Encode rest
  | [a, b] =>
    let val := a.val <<< 16 ||| b.val <<< 8
    [base64Char (val >>> 18 &&& 0x3f), base64Char (val >>> 12 &&& 0x3f),
     base64Char (val >>> 6 &&& 0x3f), padChar]
  | [a] =>
    let val := a.val <<< 16
    [base64Char (val >>> 18 &&& 0x3f), base64Char (val >>> 12 &&& 0x3f), padChar, padChar]
  | [] => []

/-- Go `base64.StdEncoding.EncodeToString`. -/
def base64EncodeToString (src : Bytes) : String := String.mk (base64Encode src)

/-- The value of a character of the standard alphabet. -/
def base64Value (c : Char) : Option Nat :=
  if c ∈ encodeStd then some (encodeStd.indexOf c) else none

/-- Strict decoding of padded standard base64: groups of four characters, padding
only in the last group. -/
def base64Decode : List Char → Option Bytes
  | [] => some []
  | c0 :: c1 :: c2 :: c3 :: rest =>
    if c2 = padChar ∧ c3 = padChar ∧ rest = [] then
      match base64Value c0, base64Value c1 with
      | some v0, some v1 => some [byteOf (v0 * 4 + v1 / 16)]
      | _, _ => none
    else if c3 = padChar ∧ rest = [] then
      match base64Value c0, base64Value c1, base64Value c2 with
      | some v0, some v1, some v2 => some [byteOf (v0 * 4 + v1 / 16), byteOf (v1 * 16 + v2 / 4)]
      | _, _, _ => none
    else
      match base64Value c0, base64Value c1, base64Value c2, base64Value c3, base64Decode rest with
      | some v0, some v1, some v2, some v3, some tail =>
        some (byteOf (v0 * 4 + v1 / 16) :: byteOf (v1 * 16 + v2 / 4)
          :: byteOf (v2 * 64 + v3) :: tail)
      | _, _, _, _, _ => none
  | _ => none

/-- Decoding of a base64 string. -/
def base64DecodeString (s : String) : Option Bytes := base64Decode s.data

/-! ## `time`: calendar fields and `Format` -/

/-- Go `time.secondsPerDay`. -/
def secondsPerDay : Nat := 86400
/-- Go `time.daysPer400Years`. -/
def daysPer400Years : Nat := 365 * 400 + 97
/-- Go `time.daysPer100Years`. -/
def daysPer100Years : Nat := 365 * 100 + 24
/-- Go `time.daysPer4Years`. -/
def daysPer4Years : Nat := 365 * 4 + 1
/-- Go `time.absoluteZeroYear`. -/
def absoluteZeroYear : Int := -292277022399
/-- Go `time.unixToInternal`: seconds from year 1 to 1970. -/
def unixToInternal : Int := (1969 * 365 + 1969 / 4 - 1969 / 100 + 1969 / 400) * 86400
/-- Go `time.internalToAbsolute`: seconds from the absolute zero year to year 1,
`(1 - absoluteZeroYear) * 365.2425 * secondsPerDay`. -/
def internalToAbsolute : Int := 292277022400 * 31556952

/-- Go `Time.abs`: seconds since the absolute zero year in the location of the
time, as a `uint64`. -/
def Time.abs (t : Time) : Nat :=
  ((t.sec + t.offset + (unixToInternal + internalToAbsolute)) % 2 ^ 64).toNat

/-- Go `time.isLeap`. -/
def isLeap (year : Int) : Bool :=
  year % 4 == 0 && (year % 100 != 0 || year % 400 == 0)

/-- Go `time.daysBefore`: days in a non-leap year before month `m + 1`. -/
def daysBefore (m : Nat) : Nat :=
  [0, 31, 59, 90, 120, 151, 181, 212, 243, 273, 304, 334, 365].getD m 0

/-- Go `time.absDate` up to its `if !full { return }`: the year and the day of
the year (from 0). -/
def absYearDay (abs : Nat) : Int × Nat :=
  -- Split into time and day.
  let d := abs / secondsPerDay
  -- Account for 400 year cycles.
  let n := d / daysPer400Years
  let y := 400 * n
  let d := d - daysPer400Years * n
  -- Cut off 100-year cycles.
  let n := d / daysPer100Years
  let n := n - n >>> 2
  let y := y + 100 * n
  let d := d - daysPer100Years * n
  -- Cut off 4-year cycles.
  let n := d / daysPer4Years
  let y := y + 4 * n
  let d := d - daysPer4Years * n
  -- Cut off years within a 4-year cycle.
  let n := d / 365
  let n := n - n >>> 2
  let y := y + n
  let d := d - 365 * n
  ((y : Int) + absoluteZeroYear, d)

/-- Go `time.absDate(abs, true)`: year, month (1 to 12) and day of the month. -/
def absDate (abs : Nat) : Int × Nat × Nat :=
  let year := (absYearDay abs).1
  let day := (absYearDay abs).2
  if isLeap year && day == 31 + 29 - 1 then
    -- Leap day.
    (year, 2, 29)
  else
    -- After leap day; pretend it was not there.
    let day := if isLeap year && day > 31 + 29 - 1 then day - 1 else day
    -- Estimate month on assumption that every month has 31 days.
    let month := day / 31
    let «end» := daysBefore (month + 1)
    if day ≥ «end» then
      (year, month + 1 + 1, day - «end» + 1)
    else
      (year, month + 1, day - daysBefore month + 1)

/-- Go `time.absClock`: hour, minute and second within the day. -/
def absClock (abs : Nat) : Nat × Nat × Nat :=
  let sec := abs % secondsPerDay
  let hour := sec / 3600
  let sec := sec - hour * 3600
  let min := sec / 60
  let sec := sec - min * 60
  (hour, min, sec)

/-- Go `time.daysSinceEpoch`: days from the absolute epoch to the first day of
the year. -/
def daysSinceEpoch (year : Int) : Nat :=
  let y := (year - absoluteZeroYear).toNat
  -- Add in days from 400-year cycles.
  let n := y / 400
  let y := y - 400 * n
  let d := daysPer400Years * n
  -- Add in 100-year cycles.
  let n := y / 100
  let y := y - 100 * n
  let d := d + daysPer100Years * n
  -- Add in 4-year cycles.
  let n := y / 4
  let y := y - 4 * n
  let d := d + daysPer4Years * n
  -- Add in non-leap years.
  let n := y
  d + 365 * n

/-- Go `time.Date(year, month, day, hour, min, sec, 0, time.UTC).Unix()` for
fields that are in range already (the normalisation of overflowing fields is
left out): the instant a UTC calendar date and clock time denote, in seconds
since 1970-01-01T00:00:00Z. -/
def dateUnix (year : Int) (month day hour min sec : Nat) : Int :=
  -- Compute days since the absolute epoch.
  let d := daysSinceEpoch year
  -- Add in days before this month.
  let d := d + daysBefore (month - 1)
  let d := if isLeap year && month ≥ 3 then d + 1 else d
  -- Add in days before today.
  let d := d + (day - 1)
  -- Add in time elapsed today.
  let abs := d * secondsPerDay + (hour * 3600 + min * 60 + sec)
  (abs : Int) - (unixToInternal + internalToAbsolute)

/-- The character `'0' + d`. -/
def digitChar (d : Nat) : Char := Char.ofNat (48 + d)

/-- The decimal digits of `n` in a field of `width` characters, most
significant first, with leading zeros. -/
def decimalField (width n : Nat) : List Char :=
  (List.range width).map (fun i => digitChar (n / 10 ^ (width - 1 - i) % 10))

/-- The text `YYYY-MM-DDTHH:MM:SS.mmmZ` for the given fields. -/
def timestampText (year month day hour min sec msec : Nat) : String :=
  String.mk (decimalField 4 year ++ ['-'] ++ decimalField 2 month ++ ['-']
    ++ decimalField 2 day ++ ['T'] ++ decimalField 2 hour ++ [':'] ++ decimalField 2 min
    ++ [':'] ++ decimalField 2 sec ++ ['.'] ++ decimalField 3 msec ++ ['Z'])

/-- The digit loop of Go `time.appendInt`, most significant digit first:
`for u >= 10 { q := u / 10; buf[i] = '0' + u - q*10; u = q }; buf[i] = '0' + u`. -/
def appendIntDigits (u : Nat) (acc : List Char) : List Char :=
  if u ≥ 10 then appendIntDigits (u / 10) (digitChar (u - u / 10 * 10) :: acc)
  else digitChar u :: acc
termination_by u
decreasing_by omega

/-- Go `time.appendInt(b, x, width)`: an optional minus sign, zero padding up to
`width` digits, the decimal digits. -/
def appendInt (b : List Char) (x : Int) (width : Nat) : List Char :=
  let b := if x < 0 then b ++ ['-'] else b
  let digits := appendIntDigits x.natAbs []
  b ++ List.replicate (width - digits.length) '0' ++ digits

/-- Go `time.formatNano` without trimming: the separator and the first `n`
of the nine zero-padded digits of the nanoseconds. -/
def formatNano (b : List Char) (nanosec : Nat) (n : Nat) : List Char :=
  let buf := (List.range 9).map (fun i => digitChar (nanosec / 10 ^ (8 - i) % 10))
  b ++ ['.'] ++ buf.take (min n 9)

/-- The pieces `time.nextStdChunk` cuts a layout into, as far as the layout of
this program needs them. -/
inductive LayoutChunk where
  | literal (s : List Char)
  | stdLongYear
  | stdZeroMonth
  | stdZeroDay
  | stdHour
  | stdZeroMinute
  | stdZeroSecond
  | stdFracSecond0 (digits : Nat)
  deriving DecidableEq, Repr

/-- Source: `Time = "2006-01-02T15:04:05.000Z"`. -/
def Time.layout : String := "2006-01-02T15:04:05.000Z"

/-- The layout `Time.layout` as `nextStdChunk` cuts it. The final `Z` is not
followed by `07`, so it is literal text, not a zone. -/
def Time.layoutChunks : List LayoutChunk :=
  [.stdLongYear, .literal ['-'], .stdZeroMonth, .literal ['-'], .stdZeroDay, .literal ['T'],
   .stdHour, .literal [':'], .stdZeroMinute, .literal [':'], .stdZeroSecond,
   .stdFracSecond0 3, .literal ['Z']]

/-- One step of Go `Time.AppendFormat`. -/
def appendChunk (t : Time) (b : List Char) : LayoutChunk → List Char
  | .literal s => b ++ s
  | .stdLongYear => appendInt b (absDate t.abs).1 4
  | .stdZeroMonth => appendInt b (absDate t.abs).2.1 2
  | .stdZeroDay => appendInt b (absDate t.abs).2.2 2
  | .stdHour => appendInt b (absClock t.abs).1 2
  | .stdZeroMinute => appendInt b (absClock t.abs).2.1 2
  | .stdZeroSecond => appendInt b (absClock t.abs).2.2 2
  | .stdFracSecond0 digits => formatNano b t.nsec.val digits

/-- Go `t.Format(Time)`: the chunks of the layout, left to right, with the
calendar fields of `t` in its own location. -/
def Time.Format (t : Time) : String :=
  String.mk (Time.layoutChunks.foldl (appendChunk t) [])

/-- Go `time.daysIn`: the number of days of month `m` (1 to 12) of a year. -/
def daysIn (m : Nat) (year : Int) : Nat :=
  if m = 2 ∧ isLeap year = true then 29 else daysBefore m - daysBefore (m - 1)

/-! ## The instant a timestamp text denotes

The definitions of this section follow the words of the claim on the `expires`
field, not the code: they read a text of the form `YYYY-MM-DDTHH:MM:SS.mmmZ`
as the UTC instant it denotes, and are what `Time.Format` is compared with. -/

/-- The value of a decimal digit. -/
def digitValue (c : Char) : Option Nat :=
  if '0' ≤ c ∧ c ≤ '9' then some (c.toNat - 48) else none

/-- The number a run of decimal digits denotes, most significant first. -/
def decimalValue (cs : List Char) : Option Nat :=
  cs.foldl (fun acc c => acc.bind (fun a => (digitValue c).map (fun d => 10 * a + d))) (some 0)

/-- The fields of a timestamp text. -/
structure DateTime where
  year : Nat
  month : Nat
  day : Nat
  hour : Nat
  min : Nat
  sec : Nat
  msec : Nat
  deriving DecidableEq, Repr

/-- A date of the calendar and a time of the clock: the month is 1 to 12, the
day exists in that month of that year, the hour is below 24, minute and second
below 60. -/
def DateTime.valid (f : DateTime) : Bool :=
  decide (1 ≤ f.month) && decide (f.month ≤ 12) && decide (1 ≤ f.day)
    && decide (f.day ≤ daysIn f.month f.year)
    && decide (f.hour < 24) && decide (f.min < 60) && decide (f.sec < 60)

/-- The fields of a text `YYYY-MM-DDTHH:MM:SS.mmmZ`: exactly 24 characters,
digits in the digit places, the separators `-`, `-`, `T`, `:`, `:`, `.` and the
final `Z` in theirs, and a valid date and time. Any other text is refused. -/
def parseTimestamp (text : String) : Option DateTime :=
  match text.data with
  | [y1, y2, y3, y4, c1, m1, m2, c2, d1, d2, c3, h1, h2, c4, n1, n2, c5, s1, s2, c6,
      f1, f2, f3, c7] =>
    if [c1, c2, c3, c4, c5, c6, c7] = ['-', '-', 'T', ':', ':', '.', 'Z'] then
      (decimalValue [y1, y2, y3, y4]).bind fun year =>
      (decimalValue [m1, m2]).bind fun month =>
      (decimalValue [d1, d2]).bind fun day =>
      (decimalValue [h1, h2]).bind fun hour =>
      (decimalValue [n1, n2]).bind fun min =>
      (decimalValue [s1, s2]).bind fun sec =>
      (decimalValue [f1, f2, f3]).bind fun msec =>
        let f : DateTime := ⟨year, month, day, hour, min, sec, msec⟩
        if f.valid then some f else none
    else none
  | _ => none

/-- The instant a text `YYYY-MM-DDTHH:MM:SS.mmmZ` denotes, the `Z` read as UTC:
the seconds since 1970-01-01T00:00:00Z of its date and time, and its
milliseconds. -/
def instantOf (text : String) : Option (Int × Nat) :=
  (parseTimestamp text).map fun f => (dateUnix f.year f.month f.day f.hour f.min f.sec, f.msec)

/-! ## `path_config.go`: configuration and storage -/

/-- Source: `configStoragePath = "config"`. -/
def configStoragePath : String := "config"

/-- Source `vmwareConfig`. The fields are Go strings, kept as octets. -/
structure vmwareConfig where
  AuthenticationURL : Bytes
  APIURL : Bytes
  Username : Bytes
  Password : Bytes
  Region : Bytes
  deriving DecidableEq, Repr

/-- Go `new(vmwareConfig)`: every field empty. -/
def vmwareConfig.new : vmwareConfig :=
  { AuthenticationURL := [], APIURL := [], Username := [], Password := [], Region := [] }

/-- The contents of a `logical.Storage`: the stored value under each key. -/
abbrev Storage := List (String × Bytes)

/-- Go `logical.Operation`, the operations routed to the configuration path. -/
inductive Operation where
  | CreateOperation
  | ReadOperation
  | UpdateOperation
  | DeleteOperation
  deriving DecidableEq, Repr

/-- Go `framework.FieldData`: the raw request fields. The five fields of the
path are all `TypeString`, so a raw value is a string. -/
structure FieldData where
  Raw : List (String × Bytes)
  deriving DecidableEq, Repr

/-- Go `FieldData.GetOk` for a field of the schema: the value and `true` when
the request carries the key. -/
def FieldData.GetOk (data : FieldData) (k : String) : Option Bytes :=
  data.Raw.lookup k

/-- A value of a response map (`interface{}`). -/
inductive Value where
  | str (s : String)
  | bytes (b : Bytes)
  deriving DecidableEq, Repr

/-- Go `logical.Response`: the `Data` map, as the list of its entries. -/
structure Response where
  Data : List (String × Value)
  deriving DecidableEq, Repr

/-- Go `logical.ErrorResponse(text)`: a response whose data is the single
entry `error`. -/
def ErrorResponse (text : String) : Response :=
  { Data := [("error", .str text)] }

/-- What a handler call ends in: the pair it returns (`none` is nil), or a
run-time panic. -/
inductive Outcome where
  | returned (resp : Option Response) (err : Option String)
  | crashed (reason : String)
  deriving DecidableEq, Repr

/-- The run-time panic of a field access or assignment through a nil pointer. -/
def nilDereference : String :=
  "runtime error: invalid memory address or nil pointer dereference"

/-! ## `net/url`, `crypto/tls`, `soap`, `sts` data -/

/-- Go `url.Userinfo`. -/
structure Userinfo where
  username : Bytes
  password : Bytes
  deriving DecidableEq, Repr

/-- Go `url.URL`, the parts used here. -/
structure URL where
  Scheme : Bytes
  Host : Bytes
  Path : Bytes
  User : Option Userinfo
  deriving DecidableEq, Repr

/-- Go `url.UserPassword`. -/
def UserPassword (username password : Bytes) : Userinfo :=
  { username := username, password := password }

/-- Go `tls.Certificate`: the certificate chain and the private key; the zero
value has neither. -/
structure TlsCertificate where
  Certificate : List Bytes
  PrivateKey : Option PrivateKey
  deriving DecidableEq, Repr

/-- The zero value `tls.Certificate{}`, which `tls.X509KeyPair` returns with an
error. -/
def TlsCertificate.zero : TlsCertificate := { Certificate := [], PrivateKey := none }

/-- Go `soap.Client` as built by `soap.NewClient(u, insecure)`. -/
structure SoapClient where
  u : URL
  insecure : Bool
  deriving DecidableEq, Repr

/-- Go `soap.NewClient`. -/
def soapNewClient (u : URL) (insecure : Bool) : SoapClient := { u := u, insecure := insecure }

/-- Go `sts.Client`: a handle on an established STS session. -/
structure StsClient where
  session : Nat
  deriving DecidableEq, Repr

/-- Go `sts.TokenRequest`, the fields the source sets. -/
structure TokenRequest where
  Certificate : TlsCertificate
  Delegatable : Bool
  Userinfo : Option Userinfo
  Lifetime : Duration
  deriving DecidableEq, Repr

/-- Go `sts.Signer`, the fields the source reads: the token and
`Lifetime.Expires`. -/
structure Signer where
  Token : Bytes
  Expires : Time
  deriving DecidableEq, Repr

/-! ## Effects and the world -/

/-- The calls with an effect outside the handler, in the order made. -/
inductive Effect where
  /-- `s.Get(ctx, key)`. -/
  | storageGet (key : String)
  /-- `logical.StorageEntryJSON(key, config)`, the first statement of `saveConfig`. -/
  | storageEntryJSON (key : String) (config : vmwareConfig)
  /-- `s.Put(ctx, entry)`. -/
  | storagePut (key : String) (value : Bytes)
  /-- `log.Printf`, with the formatted line. -/
  | log (line : String)
  /-- `sts.NewClient(ctx, soapClient)`. -/
  | stsNewClient (c : SoapClient)
  /-- `stsClient.Issue(ctx, tokenReq)`. -/
  | stsIssue (req : TokenRequest)
  /-- `gz.Write(p)`. -/
  | gzipWrite (p : Bytes)
  /-- `gz.Flush()`. -/
  | gzipFlush
  /-- `gz.Close()`. -/
  | gzipClose
  deriving DecidableEq, Repr

/-- Everything outside the two source files that a handler run depends on. -/
structure World where
  crypto : CryptoWorld
  flate : FlateWriter
  /-- The error `s.Get` reports, if it fails. -/
  storageGetErr : Option String
  /-- The error `s.Put` reports, if it fails. -/
  storagePutErr : Option String
  /-- `entry.DecodeJSON(config)`. -/
  decodeJSON : Bytes → Except String vmwareConfig
  /-- The JSON encoding inside `logical.StorageEntryJSON`. -/
  encodeJSON : vmwareConfig → Except String Bytes
  /-- `govalidator.IsURL`. -/
  isURL : Bytes → Bool
  /-- `(*multierror.Error).Error()`: the text made of the collected messages. -/
  multierrorFormat : List String → String
  /-- `pem.EncodeToMemory`. -/
  pemEncodeToMemory : PemBlock → Bytes
  /-- `tls.X509KeyPair`. -/
  x509KeyPair : Bytes → Bytes → Except String TlsCertificate
  /-- `soap.ParseURL`: an error, or a URL pointer that may be nil. -/
  parseURL : Bytes → Except String (Option URL)
  /-- `sts.NewClient`. -/
  stsNewClient : SoapClient → Except String StsClient
  /-- `(*sts.Client).Issue`. -/
  stsIssue : StsClient → TokenRequest → Except String Signer

/-- Source `getConfig`: the stored configuration, nil with a nil error when
nothing is stored, or the error of `Get` or of the JSON decoding. -/
def getConfig (w : World) (s : Storage) : Except String (Option vmwareConfig) × List Effect :=
  let trace := [Effect.storageGet configStoragePath]
  match w.storageGetErr with
  | some err => (.error err, trace)
  | none =>
    match s.lookup configStoragePath with
    | none => (.ok none, trace)
    | some entry =>
      match w.decodeJSON entry with
      | .error err => (.error err, trace)
      | .ok config => (.ok (some config), trace)

/-- Go `Storage.Put`: the entry replaces what was stored under its key. -/
def Storage.put (s : Storage) (key : String) (value : Bytes) : Storage :=
  (key, value) :: s.filter (fun e => e.1 != key)

/-- Source `saveConfig`: encode, then put. Returns the error (nil on success),
the storage afterwards and the effects. -/
def saveConfig (w : World) (config : vmwareConfig) (s : Storage) :
    Option String × Storage × List Effect :=
  let trace := [Effect.storageEntryJSON configStoragePath config]
  match w.encodeJSON config with
  | .error err => (some err, s, trace)
  | .ok entry =>
    let trace := trace ++ [Effect.storagePut configStoragePath entry]
    match w.storagePutErr with
    | some err => (some err, s, trace)
    | none => (none, s.put configStoragePath entry, trace)

/-- Go `multierror.Append(merr, errors.New(msg))` on a `*multierror.Error` that
may be nil: `none` is the nil pointer. -/
def multierrorAppend (merr : Option (List String)) (msg : String) : Option (List String) :=
  match merr with
  | none => some [msg]
  | some errs => some (errs ++ [msg])

/-- Go `(*multierror.Error).ErrorOrNil`. -/
def ErrorOrNil (merr : Option (List String)) : Option (List String) :=
  match merr with
  | none => none
  | some [] => none
  | some errs => some errs

/-- The two variables the validation blocks of `pathConfigWrite` update: the
collected errors (`none` is the nil `*multierror.Error`) and the configuration
being filled in. -/
structure WriteState where
  merr : Option (List String)
  config : vmwareConfig
  deriving DecidableEq, Repr

/-- Source lines 78-84 of `pathConfigWrite`: the `authentication_url` block. -/
def checkAuthenticationURL (w : World) (data : FieldData) (st : WriteState) : WriteState :=
  match data.GetOk "authentication_url" with
  | none => { st with merr := multierrorAppend st.merr "Authentication url is required" }
  | some authURL =>
    if !w.isURL authURL then
      { st with merr := multierrorAppend st.merr "Given authentication url is not valid url" }
    else { st with config := { st.config with AuthenticationURL := authURL } }

/-- Source lines 86-92: the `api_url` block. -/
def checkAPIURL (w : World) (data : FieldData) (st : WriteState) : WriteState :=
  match data.GetOk "api_url" with
  | none => { st with merr := multierrorAppend st.merr "API url is required" }
  | some apiURL =>
    if !w.isURL apiURL then
      { st with merr := multierrorAppend st.merr "Given API url is not valid url" }
    else { st with config := { st.config with APIURL := apiURL } }

/-- Source lines 94-98: the `username` block. -/
def checkUsername (data : FieldData) (st : WriteState) : WriteState :=
  match data.GetOk "username" with
  | none => { st with merr := multierrorAppend st.merr "Username is required" }
  | some username => { st with config := { st.config with Username := username } }

/-- Source lines 100-104: the `password` block. -/
def checkPassword (data : FieldData) (st : WriteState) : WriteState :=
  match data.GetOk "password" with
  | none => { st with merr := multierrorAppend st.merr "Password is required" }
  | some password => { st with config := { st.config with Password := password } }

/-- Source lines 106-110: the `region` block. -/
def checkRegion (data : FieldData) (st : WriteState) : WriteState :=
  match data.GetOk "region" with
  | none => { st with merr := multierrorAppend st.merr "Region is required" }
  | some region => { st with config := { st.config with Region := region } }

/-- Source `pathConfigWrite`. Returns the outcome, the storage afterwards and
the effects. The five validation blocks run one after the other on `merr` and
`config`. -/
def pathConfigWrite (w : World) (s : Storage) (op : Operation) (data : FieldData) :
    Outcome × Storage × List Effect :=
  match getConfig w s with
  | (.error err, trace) => (.returned none (some err), s, trace)
  | (.ok found, trace) =>
    if found = none ∧ op = .UpdateOperation then
      (.returned none (some "config not found during update operation"), s, trace)
    else
      let st : WriteState := { merr := none, config := found.getD vmwareConfig.new }
      let st := checkAuthenticationURL w data st
      let st := checkAPIURL w data st
      let st := checkUsername data st
      let st := checkPassword data st
      let st := checkRegion data st
      match ErrorOrNil st.merr with
      | some errs => (.returned (some (ErrorResponse (w.multierrorFormat errs))) none, s, trace)
      | none =>
        let saved := saveConfig w st.config s
        (.returned none saved.1, saved.2.1, trace ++ saved.2.2)

/-- Source `pathConfigRead`: a missing configuration is replaced by an empty
one before its fields are read. -/
def pathConfigRead (w : World) (s : Storage) : Outcome × List Effect :=
  match getConfig w s with
  | (.error err, trace) => (.returned none (some err), trace)
  | (.ok found, trace) =>
    let config := found.getD vmwareConfig.new
    (.returned (some { Data :=
        [("authentication_url", .bytes config.AuthenticationURL),
         ("api_url", .bytes config.APIURL),
         ("username", .bytes config.Username),
         ("region", .bytes config.Region)] }) none, trace)

/-- Source `pathConfigExistenceCheck`. -/
def pathConfigExistenceCheck (w : World) (s : Storage) : Except String Bool × List Effect :=
  match getConfig w s with
  | (.error err, trace) => (.error err, trace)
  | (.ok found, trace) => (.ok found.isSome, trace)

/-! ## `access_token_path.go`: the token handler -/

/-- Source lines 90-104 of `pathAccessTokenRead`: a gzip writer on an empty
buffer, `Write` of the token, `Flush`, `Close`, each checked for an error, then
the base64 text of the buffer. Returns the text, or nothing when a call failed,
and the effects. -/
def packageToken (w : World) (token : Bytes) : Option String × List Effect :=
  let gz := gzipNewWriter
  match gz.Write w.flate token with
  | (_, some _) => (none, [.gzipWrite token])
  | (gz, none) =>
    match gz.Flush w.flate with
    | (_, some _) => (none, [.gzipWrite token, .gzipFlush])
    | (gz, none) =>
      match gz.Close w.flate with
      | (_, some _) => (none, [.gzipWrite token, .gzipFlush, .gzipClose])
      | (gz, none) =>
        (some (base64EncodeToString gz.buf), [.gzipWrite token, .gzipFlush, .gzipClose])

/-- Source line 59: `tls.X509KeyPair` on the two PEM encodings. Its error is
overwritten by the next assignment to `err` and never looked at; on failure the
certificate is the zero value. -/
def clientCertificate (w : World) (selfSignedCert privateKeyPEM : PemBlock) : TlsCertificate :=
  match w.x509KeyPair (w.pemEncodeToMemory selfSignedCert) (w.pemEncodeToMemory privateKeyPEM) with
  | .ok c => c
  | .error _ => TlsCertificate.zero

/-- Source line 67: `u.User = url.UserPassword(config.Username, config.Password)`. -/
def withUser (u : URL) (config : vmwareConfig) : URL :=
  { u with User := some (UserPassword config.Username config.Password) }

/-- Source lines 77-82: the token request. -/
def tokenRequest (clientCert : TlsCertificate) (u : URL) : TokenRequest :=
  { Certificate := clientCert
    Delegatable := true
    Userinfo := u.User
    Lifetime := tokenDuration }

/-- Source `pathAccessTokenRead`. Returns the outcome and the effects. The
configuration pointer is used without a nil check (`config.Region`), and so is
the URL pointer (`u.User = ...`); the error of `tls.X509KeyPair` is overwritten
by the next assignment to `err`. -/
def pathAccessTokenRead (w : World) (s : Storage) : Outcome × List Effect :=
  match getConfig w s with
  | (.error err, trace) => (.returned none (some err), trace)
  | (.ok none, trace) => (.crashed nilDereference, trace)
  | (.ok (some config), trace) =>
    let cert := generateSelfSignedCertificate w.crypto config.Region
    match cert.err with
    | some err =>
      (.returned none (some errMessage), trace ++ [.log ("Cert generation error: " ++ err)])
    | none =>
      match cert.certPEM, cert.keyPem with
      | some selfSignedCert, some privateKeyPEM =>
        let clientCert := clientCertificate w selfSignedCert privateKeyPEM
        match w.parseURL config.AuthenticationURL with
        | .error err =>
          (.returned none (some errMessage),
            trace ++ [.log ("Failed to parse auth url: " ++ err)])
        | .ok none => (.crashed nilDereference, trace)
        | .ok (some u) =>
          let u := withUser u config
          let soapClient := soapNewClient u true
          let trace := trace ++ [.stsNewClient soapClient]
          match w.stsNewClient soapClient with
          | .error err =>
            (.returned none (some errMessage), trace ++ [.log ("Sts client error: " ++ err)])
          | .ok stsClient =>
            let tokenReq := tokenRequest clientCert u
            let trace := trace ++ [.stsIssue tokenReq]
            match w.stsIssue stsClient tokenReq with
            | .error err =>
              (.returned none (some errMessage),
                trace ++ [.log ("Failed to Issue sts token: " ++ err)])
            | .ok signer =>
              let packed := packageToken w signer.Token
              match packed.1 with
              | none => (.returned none (some errMessage), trace ++ packed.2)
              | some token =>
                (.returned (some { Data :=
                    [("token", .str token),
                     ("expires", .str signer.Expires.Format),
                     ("signature", .bytes (cert.sign.getD []))] }) none, trace ++ packed.2)
      | _, _ => (.crashed nilDereference, trace)

/-! ## Sample runs

Concrete worlds on which the statements below are instantiated. The key, the
digest and the encodings are small stand-ins: the statements do not depend on
what the crypto library computes, only on where its results go. -/

/-- A toy key (modulus 3233). -/
def sampleKey : PrivateKey := { PublicKey := { N := 3233, E := 17 }, D := 413 }

/-- 2024-01-01T00:00:00Z. -/
def sampleNow : Time := { sec := 1704067200, nsec := 0, offset := 0 }

/-- A run in which every crypto call succeeds. -/
def sampleCrypto : CryptoWorld :=
  { rsaGenerateKey := .ok sampleKey
    randInt := fun _ => .ok 7
    timeNow := sampleNow
    marshalPKIXPublicKey := fun k => .ok [byteOf k.N, byteOf k.E]
    sha256Sum256 := fun b => b.reverse
    createCertificate := fun _ _ _ _ => .ok [byteOf 0x30, byteOf 0]
    marshalPKCS1PrivateKey := fun k => [byteOf k.D]
    signPKCS1v15 := fun _ hashed => .ok hashed }

/-- The same run, except that `rsa.SignPKCS1v15` fails (its random source
reports an error). -/
def signFailureCrypto : CryptoWorld :=
  { sampleCrypto with signPKCS1v15 := fun _ _ => .error "read /dev/urandom: input/output error" }

/-- The region `us-east-1`. -/
def sampleRegion : Bytes :=
  [byteOf 117, byteOf 115, byteOf 45, byteOf 101, byteOf 97, byteOf 115, byteOf 116,
   byteOf 45, byteOf 49]

/-- The template `buildTemplate` makes in the sample run for `sampleRegion`:
the SAN value is `30 0b 82 09` followed by the nine octets of the region. -/
def sampleTemplate : Certificate :=
  { Subject :=
      { CommonName := "CA"
        Country := ["US"]
        Province := ["California"]
        Organization := [sampleRegion]
        OrganizationalUnit := ["VMware Engineering"]
        Locality := ["Palo Alto"]
        ExtraNames :=
          [{ «Type» := [0, 9, 2342, 19200300, 100, 1, 25], Value := "vsphere" },
           { «Type» := [0, 9, 2342, 19200300, 100, 1, 25], Value := "local" }] }
    KeyUsage := 15
    ExtKeyUsage := [2]
    SerialNumber := some 7
    NotBefore := sampleNow
    NotAfter := { sec := 1704326400, nsec := 0, offset := 0 }
    ExtraExtensions :=
      [{ Id := [2, 5, 29, 17], Critical := false,
         Value := [byteOf 0x30, byteOf 11, byteOf 0x82, byteOf 9] ++ sampleRegion }]
    IsCA := true
    SubjectKeyId := [byteOf 17, byteOf 3233]
    AuthorityKeyId := [byteOf 17, byteOf 3233] }

/-- A compressor that only writes stored blocks: each `Write` of at most
65535 octets is one stored block, `Flush` is an empty stored block, `Close` is
an empty final stored block. Larger writes are refused. -/
def storedEmit (ops : List FlateOp) : Except String Bytes :=
  match ops.getLast? with
  | none => .ok []
  | some (.write p) =>
    if p.length = 0 then .ok []
    else if p.length ≤ 65535 then
      .ok ([byteOf 0, byteOf p.length, byteOf (p.length >>> 8),
            byteOf (255 - p.length % 256), byteOf (255 - p.length >>> 8)] ++ p)
    else .error "flate: write too large for this writer"
  | some .flush => .ok [byteOf 0, byteOf 0, byteOf 0, byteOf 255, byteOf 255]
  | some .close => .ok [byteOf 1, byteOf 0, byteOf 0, byteOf 255, byteOf 255]

/-- The stored-block compressor. -/
def storedWriter : FlateWriter := { emit := storedEmit }

/-- The configuration of the sample runs. -/
def sampleConfig : vmwareConfig :=
  { AuthenticationURL := [byteOf 97], APIURL := [byteOf 98], Username := [byteOf 117],
    Password := [byteOf 112], Region := sampleRegion }

/-- The stored JSON of `sampleConfig` in the sample runs (a stand-in). -/
def sampleEntry : Bytes := [byteOf 0x7b, byteOf 0x7d]

/-- The token the STS issues in the sample runs: the octets of `abc`. -/
def sampleSigner : Signer :=
  { Token := [byteOf 97, byteOf 98, byteOf 99]
    Expires := { sec := 1704326400, nsec := 0, offset := 0 } }

/-- A run in which every call succeeds. -/
def sampleWorld : World :=
  { crypto := sampleCrypto
    flate := storedWriter
    storageGetErr := none
    storagePutErr := none
    decodeJSON := fun _ => .ok sampleConfig
    encodeJSON := fun _ => .ok sampleEntry
    isURL := fun u => u.length != 0
    multierrorFormat := fun errs => String.intercalate "; " errs
    pemEncodeToMemory := fun b => b.Bytes
    x509KeyPair := fun c _ => .ok { Certificate := [c], PrivateKey := some sampleKey }
    parseURL := fun u => .ok (some { Scheme := [], Host := u, Path := [], User := none })
    stsNewClient := fun _ => .ok { session := 1 }
    stsIssue := fun _ _ => .ok sampleSigner }

/-- A storage that holds a configuration. -/
def sampleStorage : Storage := [(configStoragePath, sampleEntry)]

/-- The sample run with an authentication URL that `soap.ParseURL` refuses. -/
def badURLWorld : World :=
  { sampleWorld with parseURL := fun _ => .error "parse ::::: missing protocol scheme" }

/-- The sample run in which the STS refuses to issue a token. -/
def issueFailureWorld : World :=
  { sampleWorld with stsIssue := fun _ _ => .error "Post https://sts/: dial tcp: i/o timeout" }

/-! ## The failure kinds of `pathAccessTokenRead`, as facts about a run -/

/-- Certificate generation returns an error. -/
def CertificateFails (w : World) (config : vmwareConfig) : Prop :=
  (generateSelfSignedCertificate w.crypto config.Region).err ≠ none

/-- `soap.ParseURL` returns an error for the configured authentication URL. -/
def ParseURLFails (w : World) (config : vmwareConfig) : Prop :=
  ∃ e, w.parseURL config.AuthenticationURL = .error e

/-- The URL parses and `sts.NewClient` returns an error. -/
def StsClientFails (w : World) (config : vmwareConfig) : Prop :=
  ∃ u e, w.parseURL config.AuthenticationURL = .ok (some u) ∧
    w.stsNewClient (soapNewClient (withUser u config) true) = .error e

/-- The STS client is created and `Issue` returns an error for the token
request of this run. -/
def IssueFails (w : World) (config : vmwareConfig) : Prop :=
  ∃ u c e certPEM keyPem,
    (generateSelfSignedCertificate w.crypto config.Region).certPEM = some certPEM ∧
    (generateSelfSignedCertificate w.crypto config.Region).keyPem = some keyPem ∧
    w.parseURL config.AuthenticationURL = .ok (some u) ∧
    w.stsNewClient (soapNewClient (withUser u config) true) = .ok c ∧
    w.stsIssue c (tokenRequest (clientCertificate w certPEM keyPem) (withUser u config))
      = .error e

/-- The token is issued and one of the three gzip calls returns an error. -/
def CompressionFails (w : World) (config : vmwareConfig) : Prop :=
  ∃ u c signer certPEM keyPem,
    (generateSelfSignedCertificate w.crypto config.Region).certPEM = some certPEM ∧
    (generateSelfSignedCertificate w.crypto config.Region).keyPem = some keyPem ∧
    w.parseURL config.AuthenticationURL = .ok (some u) ∧
    w.stsNewClient (soapNewClient (withUser u config) true) = .ok c ∧
    w.stsIssue c (tokenRequest (clientCertificate w certPEM keyPem) (withUser u config))
      = .ok signer ∧
    (packageToken w signer.Token).1 = none

/-- A compression step: one of the three calls on the gzip writer. -/
def Effect.isCompression : Effect → Bool
  | .gzipWrite _ => true
  | .gzipFlush => true
  | .gzipClose => true
  | _ => false

/-- A network call: the creation of the STS client or the `Issue` call. -/
def Effect.isNetworkCall : Effect → Bool
  | .stsNewClient _ => true
  | .stsIssue _ => true
  | _ => false

/-! ## The all-or-nothing reading of `pathConfigWrite`

The definitions of this section follow the words of the claim, not the code:
they are what the code is compared with. -/

/-- All five fields are present and both URLs pass the URL validation. -/
def fieldsValid (w : World) (data : FieldData) : Bool :=
  (match data.GetOk "authentication_url" with
    | some u => w.isURL u
    | none => false)
  && (match data.GetOk "api_url" with
    | some u => w.isURL u
    | none => false)
  && (data.GetOk "username").isSome
  && (data.GetOk "password").isSome
  && (data.GetOk "region").isSome

/-- The message for the authentication URL, if it is missing or invalid. -/
def authenticationURLMessages (w : World) (data : FieldData) : List String :=
  match data.GetOk "authentication_url" with
  | none => ["Authentication url is required"]
  | some u => if w.isURL u then [] else ["Given authentication url is not valid url"]

/-- The message for the API URL, if it is missing or invalid. -/
def apiURLMessages (w : World) (data : FieldData) : List String :=
  match data.GetOk "api_url" with
  | none => ["API url is required"]
  | some u => if w.isURL u then [] else ["Given API url is not valid url"]

/-- The message for a required field that is missing. -/
def requiredMessages (data : FieldData) (field message : String) : List String :=
  if (data.GetOk field).isSome then [] else [message]

/-- One message for each missing or invalid field, in the order
authentication URL, API URL, user name, password, region. -/
def fieldMessages (w : World) (data : FieldData) : List String :=
  authenticationURLMessages w data ++ apiURLMessages w data
    ++ requiredMessages data "username" "Username is required"
    ++ requiredMessages data "password" "Password is required"
    ++ requiredMessages data "region" "Region is required"

/-- The collected errors hold exactly the messages `msgs`: nil when there is
none. -/
def holdsMessages (merr : Option (List String)) (msgs : List String) : Prop :=
  (merr = none ∧ msgs = []) ∨ (merr = some msgs ∧ msgs ≠ [])

/-- `saveConfig` is called: its first statement appears among the effects. -/
def savesConfig (trace : List Effect) : Bool :=
  trace.any (fun e =>
    match e with
    | .storageEntryJSON _ _ => true
    | _ => false)

/-- The claim on `pathConfigWrite` as it is worded: the configuration is saved
exactly when the five fields are valid (and, for an update, a configuration is
stored already); otherwise the storage is unchanged and the result is an error
response made of one message for each missing or invalid field. -/
def ConfigWriteAllOrNothing (w : World) (s : Storage) (op : Operation) (data : FieldData) :
    Prop :=
  let r := pathConfigWrite w s op data
  let conditions := fieldsValid w data = true
    ∧ (op = .UpdateOperation → s.lookup configStoragePath ≠ none)
  (savesConfig r.2.2 = true ↔ conditions) ∧
  (¬ conditions →
    r.2.1 = s ∧
    r.1 = .returned (some (ErrorResponse (w.multierrorFormat (fieldMessages w data)))) none)

/-- A request that carries the five fields, all valid in the sample world. -/
def sampleFields : FieldData :=
  { Raw := [("authentication_url", [byteOf 97]), ("api_url", [byteOf 98]),
            ("username", [byteOf 117]), ("password", [byteOf 112]),
            ("region", sampleRegion)] }

/-- The response of the sample run: the token is the base64 text of the gzip
stream of `abc`. -/
def sampleResponse : Response :=
  { Data := [("token", .str "H4sIAAAAAAAA/wADAPz/YWJjAAAA//8BAAD//8JBJDUDAAAA"),
             ("expires", .str sampleSigner.Expires.Format),
             ("signature", .bytes [byteOf 0x7d, byteOf 0x7b])] }

/-- An expiry the STS reports in a location one hour east of UTC: the instant
2024-01-03T23:00:00Z, which is 2024-01-04T00:00:00 on the clock of that
location. -/
def zoneSigner : Signer :=
  { Token := [byteOf 97, byteOf 98, byteOf 99]
    Expires := { sec := 1704322800, nsec := 0, offset := 3600 } }

/-- The sample run with the expiry of `zoneSigner`. -/
def zoneWorld : World :=
  { sampleWorld with stsIssue := fun _ _ => .ok zoneSigner }

/-- The response of the run in `zoneWorld`. -/
def zoneResponse : Response :=
  { Data := [("token", .str "H4sIAAAAAAAA/wADAPz/YWJjAAAA//8BAAD//8JBJDUDAAAA"),
             ("expires", .str zoneSigner.Expires.Format),
             ("signature", .bytes [byteOf 0x7d, byteOf 0x7b])] }

/-- The claim on the `expires` field as it is worded: when every expiry the STS
can report has a year in 0..9999 and the read succeeds, the field is a text of
24 characters that denotes, read as `YYYY-MM-DDTHH:MM:SS.mmmZ` in UTC, the
instant of the expiry the STS reported for the request of this run: its second
and its milliseconds. -/
def ExpiresDenotesExpiry (w : World) (s : Storage) : Prop :=
  (∀ c req signer, w.stsIssue c req = .ok signer →
    -62167219200 ≤ signer.Expires.sec + signer.Expires.offset
      ∧ signer.Expires.sec + signer.Expires.offset < 253402300800) →
  ∀ resp, (pathAccessTokenRead w s).1 = .returned (some resp) none →
    ∃ c req signer text,
      w.stsIssue c req = .ok signer ∧
      Effect.stsIssue req ∈ (pathAccessTokenRead w s).2 ∧
      resp.Data.lookup "expires" = some (.str text) ∧
      text.length = 24 ∧
      instantOf text = some (signer.Expires.sec, signer.Expires.nsec.val / 1000000)

/-! # Part II: lemmas and theorems -/

/-! ### Lemmas on the length octets -/

theorem lengthLength_pos (i : Nat) : 0 < lengthLength i := by
  rw [lengthLength]
  split <;> omega

theorem lt_pow_lengthLength (i : Nat) : i < 256 ^ lengthLength i := by
  induction i using Nat.strongRecOn with
  | _ i ih =>
    rw [lengthLength]
    split
    · rename_i h
      have hlt : i >>> 8 < i := by
        simp only [Nat.shiftRight_eq_div_pow]
        omega
      have := ih (i >>> 8) hlt
      simp only [Nat.shiftRight_eq_div_pow] at this ⊢
      rw [pow_succ]
      omega
    · omega

theorem pow_pred_lengthLength_le (i : Nat) (hi : 0 < i) :
    256 ^ (lengthLength i - 1) ≤ i := by
  induction i using Nat.strongRecOn with
  | _ i ih =>
    rw [lengthLength]
    split
    · rename_i h
      have hlt : i >>> 8 < i := by
        simp only [Nat.shiftRight_eq_div_pow]
        omega
      have hpos : 0 < i >>> 8 := by
        simp only [Nat.shiftRight_eq_div_pow]
        omega
      have h1 := ih (i >>> 8) hlt hpos
      have h2 := lengthLength_pos (i >>> 8)
      simp only [Nat.shiftRight_eq_div_pow] at h1 h2 ⊢
      have e : lengthLength (i / 2 ^ 8) + 1 - 1 = (lengthLength (i / 2 ^ 8) - 1) + 1 := by omega
      rw [e, pow_succ]
      omega
    · simp
      omega

theorem lengthLength_le_of_lt (i k : Nat) (hk : 0 < k) (h : i < 256 ^ k) :
    lengthLength i ≤ k := by
  by_contra hc
  by_cases hi : 0 < i
  · have h1 := pow_pred_lengthLength_le i hi
    have h2 : 256 ^ k ≤ 256 ^ (lengthLength i - 1) :=
      Nat.pow_le_pow_right (by decide) (by omega)
    omega
  · have : i = 0 := by omega
    subst this
    rw [lengthLength] at hc
    simp at hc
    omega

theorem appendLengthLoop_append (dst : Bytes) (i n : Nat) :
    appendLengthLoop dst i n = dst ++ appendLengthLoop [] i n := by
  induction n generalizing dst with
  | zero => simp [appendLengthLoop]
  | succ n ih =>
    simp only [appendLengthLoop]
    rw [ih, ih ([] ++ _)]
    simp

theorem derReadBigEndian_appendLengthLoop (n acc i : Nat) (rest : Bytes)
    (h : n = 0 ∨ 0 < acc * 256 + (i / 256 ^ (n - 1)) % 256) :
    derReadBigEndian n acc (appendLengthLoop [] i n ++ rest)
      = some (acc * 256 ^ n + i % 256 ^ n, rest) := by
  induction n generalizing acc with
  | zero => simp [derReadBigEndian, appendLengthLoop, Nat.mod_one]
  | succ n ih =>
    have hb : (byteOf (i >>> (n * 8))).val = (i / 256 ^ n) % 256 := by
      simp only [byteOf, Nat.shiftRight_eq_div_pow]
      rw [Nat.mul_comm n 8, pow_mul]
      norm_num
    have hpos : 0 < acc * 256 + (i / 256 ^ n) % 256 := by
      rcases h with h | h
      · omega
      · simpa using h
    have hstep : appendLengthLoop [] i (n + 1) ++ rest
        = byteOf (i >>> (n * 8)) :: (appendLengthLoop [] i n ++ rest) := by
      simp only [appendLengthLoop]
      rw [appendLengthLoop_append]
      simp
    have hacc : 0 < (acc * 256 + (i / 256 ^ n) % 256) * 256 + (i / 256 ^ (n - 1)) % 256 := by
      omega
    rw [hstep]
    simp only [derReadBigEndian, hb]
    rw [if_neg (by omega), ih _ (Or.inr hacc)]
    congr 2
    rw [Nat.mod_pow_succ, pow_succ]
    ring

theorem appendTagAndLength_sequence (len : Nat) :
    appendTagAndLength [] ⟨0, 16, len, true⟩ = byteOf 0x30 :: lengthOctets len := by
  simp only [appendTagAndLength, lengthOctets, appendLength]
  split
  · rw [appendLengthLoop_append, appendLengthLoop_append [_]]
    rfl
  · rfl

theorem appendTagAndLength_context2 (len : Nat) :
    appendTagAndLength [] ⟨2, 2, len, false⟩ = byteOf 0x82 :: lengthOctets len := by
  simp only [appendTagAndLength, lengthOctets, appendLength]
  split
  · rw [appendLengthLoop_append, appendLengthLoop_append [_]]
    rfl
  · rfl

theorem leading_octet_pos (len : Nat) (h : 0 < len) :
    0 < (len / 256 ^ (lengthLength len - 1)) % 256 := by
  have h1 := pow_pred_lengthLength_le len h
  have h2 := lt_pow_lengthLength len
  have h3 := lengthLength_pos len
  have hp : 0 < 256 ^ (lengthLength len - 1) := by positivity
  have e : 256 ^ lengthLength len = 256 ^ (lengthLength len - 1) * 256 := by
    rw [← pow_succ]
    congr 1
    omega
  have hlt : len / 256 ^ (lengthLength len - 1) < 256 := by
    rw [Nat.div_lt_iff_lt_mul hp]
    omega
  have hge : 1 ≤ len / 256 ^ (lengthLength len - 1) := by
    rw [Nat.le_div_iff_mul_le hp]
    omega
  omega

theorem derReadLength_lengthOctets (len : Nat) (rest : Bytes) (h : len < 256 ^ 8) :
    derReadLength (lengthOctets len ++ rest) = some (len, rest) := by
  unfold lengthOctets
  split
  · rename_i hlen
    have hl8 : lengthLength len ≤ 8 := lengthLength_le_of_lt len 8 (by decide) h
    have hl1 := lengthLength_pos len
    have hlead := leading_octet_pos len (by omega)
    have hlt := lt_pow_lengthLength len
    have hb : (byteOf (0x80 ||| lengthLength len % 256)).val = 128 + lengthLength len := by
      generalize lengthLength len = l at hl8 hl1
      interval_cases l <;> rfl
    unfold appendLength
    rw [appendLengthLoop_append]
    simp only [List.singleton_append, List.cons_append, List.nil_append, derReadLength, hb]
    rw [if_neg (by omega), if_neg (by omega)]
    have e : 128 + lengthLength len - 128 = lengthLength len := by omega
    rw [e, derReadBigEndian_appendLengthLoop (lengthLength len) 0 len rest (Or.inr (by omega))]
    simp only [Nat.zero_mul, Nat.zero_add, Nat.mod_eq_of_lt hlt]
    rw [if_neg (by omega)]
  · rename_i hlen
    have hb : (byteOf len).val = len := by
      simp only [byteOf]
      omega
    simp only [List.singleton_append, derReadLength, hb]
    rw [if_pos (by omega)]

theorem derReadElement_sequence (body : Bytes) (h : body.length < 256 ^ 8) :
    derReadElement (appendTagAndLength [] ⟨0, 16, body.length, true⟩ ++ body)
      = some (⟨0, 16, body.length, true⟩, body, []) := by
  rw [appendTagAndLength_sequence]
  simp only [List.cons_append, derReadElement]
  rw [if_neg (by decide), derReadLength_lengthOctets _ _ h]
  simp [byteOf]
  decide

theorem derReadElement_context2 (name : Bytes) (h : name.length < 256 ^ 8) :
    derReadElement (appendTagAndLength [] ⟨2, 2, name.length, false⟩ ++ name)
      = some (⟨2, 2, name.length, false⟩, name, []) := by
  rw [appendTagAndLength_context2]
  simp only [List.cons_append, derReadElement]
  rw [if_neg (by decide), derReadLength_lengthOctets _ _ h]
  simp [byteOf]
  decide

theorem length_lengthOctets_le (len : Nat) (h : len < 256 ^ 8) :
    (lengthOctets len).length ≤ 9 := by
  unfold lengthOctets
  split
  · have hl8 : lengthLength len ≤ 8 := lengthLength_le_of_lt len 8 (by decide) h
    have hlen : ∀ n, (appendLengthLoop [] len n).length = n := by
      intro n
      induction n with
      | zero => rfl
      | succ n ih =>
        simp only [appendLengthLoop]
        rw [appendLengthLoop_append]
        simp [ih]
    unfold appendLength
    rw [appendLengthLoop_append]
    simp [hlen]
    omega
  · simp

/-! ## The certificate template -/

theorem buildTemplate_ok (w : CryptoWorld) (region : Bytes) (key : PrivateKey)
    (template : Certificate) (h : buildTemplate w region = .ok (key, template)) :
    ∃ san der,
      w.rsaGenerateKey = .ok key ∧
      asn1MarshalRawValues [⟨2, 2, false, region⟩] = .ok san ∧
      w.marshalPKIXPublicKey key.Public = .ok der ∧
      template.ExtraExtensions = [⟨[2, 5, 29, 17], false, san⟩] ∧
      template.NotBefore = w.timeNow ∧
      template.NotAfter = w.timeNow.Add tokenDuration ∧
      template.SubjectKeyId = w.sha256Sum256 der ∧
      template.AuthorityKeyId = w.sha256Sum256 der := by
  unfold buildTemplate at h
  split at h
  · cases h
  · rename_i key0 hkey
    split at h
    · cases h
    · rename_i san hsan
      split at h
      · cases h
      · rename_i der hder
        simp only [Except.ok.injEq, Prod.mk.injEq] at h
        obtain ⟨hk, ht⟩ := h
        subst hk
        subst ht
        exact ⟨san, der, hkey, hsan, hder, rfl, rfl, rfl, rfl, rfl⟩

theorem decodeSubjectAltName_marshal (region san : Bytes) (hlen : region.length < 2 ^ 63)
    (h : asn1MarshalRawValues [⟨2, 2, false, region⟩] = .ok san) :
    decodeSubjectAltName san = some region := by
  simp only [asn1MarshalRawValues, List.map_cons, List.map_nil, List.flatten_cons,
    List.flatten_nil, List.append_nil, Except.ok.injEq] at h
  subst h
  have hname : region.length < 256 ^ 8 := by
    have : (2 : Nat) ^ 63 < 256 ^ 8 := by norm_num
    omega
  have hbody : (marshalRawValue ⟨2, 2, false, region⟩).length < 256 ^ 8 := by
    have h9 := length_lengthOctets_le region.length hname
    simp only [marshalRawValue, appendTagAndLength_context2, List.length_append,
      List.length_cons]
    have : (2 : Nat) ^ 63 + 10 < 256 ^ 8 := by norm_num
    omega
  unfold decodeSubjectAltName
  rw [derReadElement_sequence _ hbody]
  simp only [marshalRawValue]
  rw [derReadElement_context2 _ hname]

/-- C1: for every region (a Go string, so shorter than `2^63` octets), the
template built by `generateSelfSignedCertificate` carries exactly one extra
extension, with OID 2.5.29.17, not critical, whose value is what `asn1.Marshal`
gives for the one context-specific tag-2 raw value holding the region; read
back as DER (a SEQUENCE holding that single element) it gives the region. -/
theorem san_extension_decodes_to_region (w : CryptoWorld) (region : Bytes)
    (key : PrivateKey) (template : Certificate)
    (hlen : region.length < 2 ^ 63)
    (h : buildTemplate w region = .ok (key, template)) :
    ∃ san, asn1MarshalRawValues [⟨2, 2, false, region⟩] = .ok san ∧
      template.ExtraExtensions = [⟨[2, 5, 29, 17], false, san⟩] ∧
      decodeSubjectAltName san = some region := by
  obtain ⟨san, _, _, hsan, _, hext, _⟩ := buildTemplate_ok w region key template h
  exact ⟨san, hsan, hext, decodeSubjectAltName_marshal region san hlen hsan⟩

theorem buildTemplate_sampleCrypto :
    buildTemplate sampleCrypto sampleRegion = .ok (sampleKey, sampleTemplate) := by
  rfl

theorem san_extension_decodes_to_region_witness :
    sampleRegion.length < 2 ^ 63 ∧
    buildTemplate sampleCrypto sampleRegion = .ok (sampleKey, sampleTemplate) ∧
    ∃ san, asn1MarshalRawValues [⟨2, 2, false, sampleRegion⟩] = .ok san ∧
      sampleTemplate.ExtraExtensions = [⟨[2, 5, 29, 17], false, san⟩] ∧
      decodeSubjectAltName san = some sampleRegion :=
  ⟨by decide, buildTemplate_sampleCrypto,
    san_extension_decodes_to_region sampleCrypto sampleRegion sampleKey sampleTemplate
      (by decide) buildTemplate_sampleCrypto⟩

theorem packageToken_trace (w : World) (token : Bytes) (e : Effect)
    (h : e ∈ (packageToken w token).2) :
    e = .gzipWrite token ∨ e = .gzipFlush ∨ e = .gzipClose := by
  simp only [packageToken] at h
  rcases hW : GzipWriter.Write w.flate gzipNewWriter token with ⟨gz1, e1⟩
  rw [hW] at h
  cases e1 with
  | some e1 => simp at h; exact Or.inl h
  | none =>
    simp only at h
    rcases hF : GzipWriter.Flush w.flate gz1 with ⟨gz2, e2⟩
    rw [hF] at h
    cases e2 with
    | some e2 => simp at h; tauto
    | none =>
      simp only at h
      rcases hC : GzipWriter.Close w.flate gz2 with ⟨gz3, e3⟩
      rw [hC] at h
      cases e3 with
      | some e3 => simp at h; tauto
      | none => simp at h; tauto

theorem getConfig_trace (w : World) (s : Storage) :
    (getConfig w s).2 = [.storageGet configStoragePath] := by
  unfold getConfig
  repeat' split
  all_goals rfl

theorem packageToken_no_stsIssue (w : World) (token : Bytes) (req : TokenRequest) :
    Effect.stsIssue req ∉ (packageToken w token).2 := by
  intro h
  have := packageToken_trace w token _ h
  simp at this

theorem stsIssue_lifetime (w : World) (s : Storage) (req : TokenRequest)
    (h : Effect.stsIssue req ∈ (pathAccessTokenRead w s).2) :
    req.Lifetime = 72 * Hour := by
  have hg := getConfig_trace w s
  unfold pathAccessTokenRead at h
  rcases hgc : getConfig w s with ⟨r, tr⟩
  rw [hgc] at h hg
  simp only at hg
  subst hg
  rcases r with err | _ | config
  · simp at h
  · simp at h
  · simp only at h
    repeat' split at h
    all_goals simp at h
    all_goals first
      | (subst h; rfl)
      | (rcases h with h | h
         · subst h; rfl
         · exact absurd h (packageToken_no_stsIssue _ _ _))

theorem Time.Add_tokenDuration (t : Time) :
    t.Add tokenDuration = ⟨t.sec + 259200, t.nsec, t.offset⟩ := by
  have h1 : Int.tdiv tokenDuration 1000000000 = 259200 := by decide
  have h2 : Int.tmod tokenDuration 1000000000 = 0 := by decide
  have hn := t.nsec.isLt
  unfold Time.Add
  simp only [h1, h2, Int.add_zero]
  rw [if_neg (by omega), if_neg (by omega)]
  congr 1
  apply Fin.ext
  simp [Fin.ofNat]

theorem Time.Sub_Add_tokenDuration (t : Time) :
    (t.Add tokenDuration).Sub t = 72 * Hour := by
  have hd : (72 * Hour : Duration) = tokenDuration := rfl
  have hw : wrapInt64 (wrapInt64 (wrapInt64 (t.sec + 259200 - t.sec) * Second)
            + (((t.nsec.val : Nat) : Int) - ((t.nsec.val : Nat) : Int))) = tokenDuration := by
    have e1 : t.sec + 259200 - t.sec = 259200 := by omega
    have e2 : (((t.nsec.val : Nat) : Int) - ((t.nsec.val : Nat) : Int)) = 0 := by omega
    rw [e1, e2]
    decide
  rw [hd, Time.Add_tokenDuration]
  unfold Time.Sub
  simp only [hw]
  rw [Time.Add_tokenDuration]
  simp [Time.Equal]

/-- C3: the template built by `generateSelfSignedCertificate` has
`NotBefore = now` and `NotAfter = now.Add(tokenDuration)`, whatever `now` is;
`NotAfter.Sub(NotBefore)` is exactly 72 hours; and every token request handed
to `stsClient.Issue` by `pathAccessTokenRead` has that same duration as its
`Lifetime`. -/
theorem certificate_validity_is_token_lifetime (w : CryptoWorld) (region : Bytes)
    (key : PrivateKey) (template : Certificate)
    (h : buildTemplate w region = .ok (key, template)) :
    template.NotBefore = w.timeNow ∧
    template.NotAfter = w.timeNow.Add tokenDuration ∧
    template.NotAfter.Sub template.NotBefore = 72 * Hour ∧
    tokenDuration = 72 * Hour ∧
    ∀ (world : World) (s : Storage) (req : TokenRequest),
      Effect.stsIssue req ∈ (pathAccessTokenRead world s).2 →
        req.Lifetime = template.NotAfter.Sub template.NotBefore := by
  obtain ⟨_, _, _, _, _, _, hnb, hna, _⟩ := buildTemplate_ok w region key template h
  have hsub : template.NotAfter.Sub template.NotBefore = 72 * Hour := by
    rw [hnb, hna]
    exact Time.Sub_Add_tokenDuration _
  refine ⟨hnb, hna, hsub, rfl, ?_⟩
  intro world s req hreq
  rw [hsub]
  exact stsIssue_lifetime world s req hreq

theorem certificate_validity_is_token_lifetime_witness :
    buildTemplate sampleCrypto sampleRegion = .ok (sampleKey, sampleTemplate) ∧
    sampleTemplate.NotBefore = sampleCrypto.timeNow ∧
    sampleTemplate.NotAfter = sampleCrypto.timeNow.Add tokenDuration ∧
    sampleTemplate.NotAfter.Sub sampleTemplate.NotBefore = 72 * Hour ∧
    tokenDuration = 72 * Hour ∧
    ∀ (world : World) (s : Storage) (req : TokenRequest),
      Effect.stsIssue req ∈ (pathAccessTokenRead world s).2 →
        req.Lifetime = sampleTemplate.NotAfter.Sub sampleTemplate.NotBefore :=
  ⟨buildTemplate_sampleCrypto,
    certificate_validity_is_token_lifetime sampleCrypto sampleRegion sampleKey sampleTemplate
      buildTemplate_sampleCrypto⟩

/-- C4: in the template built by `generateSelfSignedCertificate`,
`SubjectKeyId` and `AuthorityKeyId` are equal, and both are `sha256.Sum256` of
what `x509.MarshalPKIXPublicKey` gives for the public half of the key that
`rsa.GenerateKey` returned in this run. -/
theorem key_ids_are_public_key_digest (w : CryptoWorld) (region : Bytes)
    (key : PrivateKey) (template : Certificate)
    (h : buildTemplate w region = .ok (key, template)) :
    w.rsaGenerateKey = .ok key ∧
    template.SubjectKeyId = template.AuthorityKeyId ∧
    ∃ der, w.marshalPKIXPublicKey key.Public = .ok der ∧
      template.SubjectKeyId = w.sha256Sum256 der ∧
      template.AuthorityKeyId = w.sha256Sum256 der := by
  obtain ⟨_, der, hkey, _, hder, _, _, _, hs, ha⟩ := buildTemplate_ok w region key template h
  exact ⟨hkey, hs.trans ha.symm, der, hder, hs, ha⟩

theorem key_ids_are_public_key_digest_witness :
    buildTemplate sampleCrypto sampleRegion = .ok (sampleKey, sampleTemplate) ∧
    sampleCrypto.rsaGenerateKey = .ok sampleKey ∧
    sampleTemplate.SubjectKeyId = sampleTemplate.AuthorityKeyId ∧
    ∃ der, sampleCrypto.marshalPKIXPublicKey sampleKey.Public = .ok der ∧
      sampleTemplate.SubjectKeyId = sampleCrypto.sha256Sum256 der ∧
      sampleTemplate.AuthorityKeyId = sampleCrypto.sha256Sum256 der :=
  ⟨buildTemplate_sampleCrypto,
    key_ids_are_public_key_digest sampleCrypto sampleRegion sampleKey sampleTemplate
      buildTemplate_sampleCrypto⟩

/-! ## Error returns of `generateSelfSignedCertificate` -/

theorem generateSelfSignedCertificate_cases (w : CryptoWorld) (region : Bytes) :
    (∃ e, generateSelfSignedCertificate w region = ⟨none, none, none, some e⟩) ∨
    (∃ c k e, generateSelfSignedCertificate w region = ⟨some c, some k, none, some e⟩ ∧
      ∃ key hashed, w.signPKCS1v15 key hashed = .error e) ∨
    (∃ c k sg, generateSelfSignedCertificate w region = ⟨some c, some k, some sg, none⟩) := by
  unfold generateSelfSignedCertificate
  split
  · exact Or.inl ⟨_, rfl⟩
  · split
    · exact Or.inl ⟨_, rfl⟩
    · simp only
      split
      · rename_i hsign
        exact Or.inr (Or.inl ⟨_, _, _, rfl, _, _, hsign⟩)
      · exact Or.inr (Or.inr ⟨_, _, _, rfl⟩)

/-- C6 (the code departs from the claim): in a run in which key generation,
serial number, marshalling and certificate creation succeed and
`rsa.SignPKCS1v15` fails, `generateSelfSignedCertificate` returns a non-nil
error together with a non-nil certificate block and a non-nil key block; only
the signature is nil. -/
theorem sign_failure_returns_certificate_and_key :
    generateSelfSignedCertificate signFailureCrypto sampleRegion =
      { certPEM := some { «Type» := "CERTIFICATE", Bytes := [byteOf 0x30, byteOf 0] }
        keyPem := some { «Type» := "RSA PRIVATE KEY", Bytes := [byteOf 413] }
        sign := none
        err := some "read /dev/urandom: input/output error" } := by
  rfl

/-! ## `pathAccessTokenRead` -/

theorem getConfig_eq (w : World) (s : Storage) (r : Except String (Option vmwareConfig))
    (h : (getConfig w s).1 = r) :
    getConfig w s = (r, [.storageGet configStoragePath]) := by
  rw [← h, ← getConfig_trace w s]

theorem certificate_blocks_of_no_error (w : CryptoWorld) (region : Bytes)
    (h : (generateSelfSignedCertificate w region).err = none) :
    ∃ c k sg, generateSelfSignedCertificate w region = ⟨some c, some k, some sg, none⟩ := by
  rcases generateSelfSignedCertificate_cases w region with ⟨e, he⟩ | ⟨c, k, e, he, _⟩ | h3
  · rw [he] at h
    cases h
  · rw [he] at h
    cases h
  · exact h3

/-- C7: once a configuration is loaded, if certificate generation, URL
parsing, STS client creation, token issuance or token compression fails, then
`pathAccessTokenRead` returns a nil response and an error whose message is
exactly `Failed to acquire token`, the same for every kind; and when it is the
issuance that fails, no call on the gzip writer appears among the effects. -/
theorem failures_give_generic_error (w : World) (s : Storage) (config : vmwareConfig)
    (hcfg : (getConfig w s).1 = .ok (some config))
    (hfail : CertificateFails w config ∨ ParseURLFails w config ∨ StsClientFails w config
      ∨ IssueFails w config ∨ CompressionFails w config) :
    (pathAccessTokenRead w s).1 = .returned none (some "Failed to acquire token") ∧
    (IssueFails w config →
      ∀ e ∈ (pathAccessTokenRead w s).2, e.isCompression = false) := by
  have hg := getConfig_eq w s _ hcfg
  cases herr : (generateSelfSignedCertificate w.crypto config.Region).err with
  | some e =>
    constructor
    · simp [pathAccessTokenRead, hg, herr, errMessage]
    · intro _ e he
      simp [pathAccessTokenRead, hg, herr] at he
      rcases he with he | he <;> subst he <;> rfl
  | none =>
    obtain ⟨cp, kp, sg, hcert⟩ := certificate_blocks_of_no_error _ _ herr
    rcases hparse : w.parseURL config.AuthenticationURL with e | _ | u
    · constructor
      · simp [pathAccessTokenRead, hg, hcert, hparse, errMessage]
      · intro _ e he
        simp [pathAccessTokenRead, hg, hcert, hparse] at he
        rcases he with he | he <;> subst he <;> rfl
    · exfalso
      simp [CertificateFails, ParseURLFails, StsClientFails, IssueFails, CompressionFails,
        herr, hparse] at hfail
    · rcases hnew : w.stsNewClient (soapNewClient (withUser u config) true) with e | c
      · constructor
        · simp [pathAccessTokenRead, hg, hcert, hparse, hnew, errMessage]
        · intro _ e he
          simp [pathAccessTokenRead, hg, hcert, hparse, hnew] at he
          rcases he with he | he | he <;> subst he <;> rfl
      · rcases hissue : w.stsIssue c (tokenRequest (clientCertificate w cp kp) (withUser u config))
          with e | signer
        · constructor
          · simp [pathAccessTokenRead, hg, hcert, hparse, hnew, hissue, errMessage]
          · intro _ e he
            simp [pathAccessTokenRead, hg, hcert, hparse, hnew, hissue] at he
            rcases he with he | he | he | he <;> subst he <;> rfl
        · cases hpack : (packageToken w signer.Token).1 with
          | none =>
            constructor
            · simp [pathAccessTokenRead, hg, hcert, hparse, hnew, hissue, hpack, errMessage]
            · intro hif
              exfalso
              simp [IssueFails, hcert, hparse, hnew, hissue] at hif
          | some text =>
            exfalso
            simp [CertificateFails, ParseURLFails, StsClientFails, IssueFails, CompressionFails,
              herr, hcert, hparse, hnew, hissue, hpack] at hfail

theorem getConfig_issueFailureWorld :
    (getConfig issueFailureWorld sampleStorage).1 = .ok (some sampleConfig) := by
  rfl

theorem issueFails_issueFailureWorld : IssueFails issueFailureWorld sampleConfig :=
  ⟨_, _, _, _, _, rfl, rfl, rfl, rfl, rfl⟩

theorem failures_give_generic_error_witness :
    (getConfig issueFailureWorld sampleStorage).1 = .ok (some sampleConfig) ∧
    IssueFails issueFailureWorld sampleConfig ∧
    (pathAccessTokenRead issueFailureWorld sampleStorage).1
      = .returned none (some "Failed to acquire token") ∧
    (IssueFails issueFailureWorld sampleConfig →
      ∀ e ∈ (pathAccessTokenRead issueFailureWorld sampleStorage).2, e.isCompression = false) :=
  ⟨getConfig_issueFailureWorld, issueFails_issueFailureWorld,
    failures_give_generic_error issueFailureWorld sampleStorage sampleConfig
      getConfig_issueFailureWorld
      (Or.inr (Or.inr (Or.inr (Or.inl issueFails_issueFailureWorld))))⟩

/-- C8: with a stored configuration whose authentication URL `soap.ParseURL`
refuses, `pathAccessTokenRead` returns a nil response and the error
`Failed to acquire token`, and neither `sts.NewClient` nor `Issue` appears among
its effects; when the certificate was generated, the effects are the storage
read and the log line of the parse error, nothing else. -/
theorem unparsable_url_makes_no_network_call (w : World) (s : Storage)
    (config : vmwareConfig) (err : String)
    (hcfg : (getConfig w s).1 = .ok (some config))
    (hparse : w.parseURL config.AuthenticationURL = .error err) :
    (pathAccessTokenRead w s).1 = .returned none (some errMessage) ∧
    (∀ e ∈ (pathAccessTokenRead w s).2, e.isNetworkCall = false) ∧
    (¬ CertificateFails w config →
      (pathAccessTokenRead w s).2 =
        [.storageGet configStoragePath, .log ("Failed to parse auth url: " ++ err)]) := by
  have hg := getConfig_eq w s _ hcfg
  cases herr : (generateSelfSignedCertificate w.crypto config.Region).err with
  | some e =>
    refine ⟨?_, ?_, ?_⟩
    · simp [pathAccessTokenRead, hg, herr]
    · intro e he
      simp [pathAccessTokenRead, hg, herr] at he
      rcases he with he | he <;> subst he <;> rfl
    · intro hc
      exact absurd (by simp [CertificateFails, herr]) hc
  | none =>
    obtain ⟨cp, kp, sg, hcert⟩ := certificate_blocks_of_no_error _ _ herr
    refine ⟨?_, ?_, ?_⟩
    · simp [pathAccessTokenRead, hg, hcert, hparse]
    · intro e he
      simp [pathAccessTokenRead, hg, hcert, hparse] at he
      rcases he with he | he <;> subst he <;> rfl
    · intro _
      simp [pathAccessTokenRead, hg, hcert, hparse]

theorem getConfig_badURLWorld :
    (getConfig badURLWorld sampleStorage).1 = .ok (some sampleConfig) := by
  rfl

theorem unparsable_url_makes_no_network_call_witness :
    (getConfig badURLWorld sampleStorage).1 = .ok (some sampleConfig) ∧
    badURLWorld.parseURL sampleConfig.AuthenticationURL
      = .error "parse ::::: missing protocol scheme" ∧
    (pathAccessTokenRead badURLWorld sampleStorage).1 = .returned none (some errMessage) ∧
    (∀ e ∈ (pathAccessTokenRead badURLWorld sampleStorage).2, e.isNetworkCall = false) ∧
    (¬ CertificateFails badURLWorld sampleConfig →
      (pathAccessTokenRead badURLWorld sampleStorage).2 =
        [.storageGet configStoragePath,
         .log ("Failed to parse auth url: " ++ "parse ::::: missing protocol scheme")]) :=
  ⟨getConfig_badURLWorld, rfl,
    unparsable_url_makes_no_network_call badURLWorld sampleStorage sampleConfig _
      getConfig_badURLWorld rfl⟩

theorem pathAccessTokenRead_without_config (w : World) (s : Storage)
    (h : (getConfig w s).1 = .ok none) :
    pathAccessTokenRead w s = (.crashed nilDereference, [.storageGet configStoragePath]) := by
  simp [pathAccessTokenRead, getConfig_eq w s _ h]

theorem pathConfigRead_without_config (w : World) (s : Storage)
    (h : (getConfig w s).1 = .ok none) :
    ∃ resp, pathConfigRead w s = (.returned (some resp) none, [.storageGet configStoragePath]) := by
  simp [pathConfigRead, getConfig_eq w s _ h]

/-- C5 (the code departs from the claim): with nothing stored, `getConfig`
returns a nil configuration and a nil error, and `pathAccessTokenRead` then
reads `config.Region` through the nil pointer: the run ends in a run-time
panic, not in a returned error. -/
theorem token_read_without_config_crashes :
    (getConfig sampleWorld []).1 = .ok none ∧
    pathAccessTokenRead sampleWorld []
      = (.crashed "runtime error: invalid memory address or nil pointer dereference",
         [.storageGet "config"]) ∧
    (pathAccessTokenRead sampleWorld []).1 ≠ .returned none (some "Failed to acquire token") := by
  refine ⟨rfl, rfl, ?_⟩
  intro h
  cases h

/-! ## `pathConfigWrite` -/

theorem holdsMessages_append (merr : Option (List String)) (msgs : List String) (msg : String)
    (h : holdsMessages merr msgs) :
    holdsMessages (multierrorAppend merr msg) (msgs ++ [msg]) := by
  rcases h with ⟨h1, h2⟩ | ⟨h1, h2⟩
  · subst h1 h2
    exact Or.inr ⟨rfl, by simp⟩
  · subst h1
    exact Or.inr ⟨rfl, by simp⟩

theorem holdsMessages_nil (merr : Option (List String)) (msgs : List String)
    (h : holdsMessages merr msgs) : holdsMessages merr (msgs ++ []) := by
  simpa using h

theorem ErrorOrNil_of_holdsMessages (merr : Option (List String)) (msgs : List String)
    (h : holdsMessages merr msgs) :
    ErrorOrNil merr = if msgs = [] then none else some msgs := by
  rcases h with ⟨h1, h2⟩ | ⟨h1, h2⟩
  · subst h1 h2
    rfl
  · subst h1
    rw [if_neg h2]
    cases msgs with
    | nil => exact absurd rfl h2
    | cons a l => rfl

theorem checkAuthenticationURL_messages (w : World) (data : FieldData) (st : WriteState)
    (msgs : List String) (h : holdsMessages st.merr msgs) :
    holdsMessages (checkAuthenticationURL w data st).merr
      (msgs ++ authenticationURLMessages w data) := by
  unfold checkAuthenticationURL authenticationURLMessages
  cases data.GetOk "authentication_url" with
  | none => exact holdsMessages_append _ _ _ h
  | some u =>
    cases hv : w.isURL u
    · simpa [hv] using holdsMessages_append _ _ _ h
    · simpa [hv] using h

theorem checkAPIURL_messages (w : World) (data : FieldData) (st : WriteState)
    (msgs : List String) (h : holdsMessages st.merr msgs) :
    holdsMessages (checkAPIURL w data st).merr (msgs ++ apiURLMessages w data) := by
  unfold checkAPIURL apiURLMessages
  cases data.GetOk "api_url" with
  | none => exact holdsMessages_append _ _ _ h
  | some u =>
    cases hv : w.isURL u
    · simpa [hv] using holdsMessages_append _ _ _ h
    · simpa [hv] using h

theorem checkUsername_messages (data : FieldData) (st : WriteState)
    (msgs : List String) (h : holdsMessages st.merr msgs) :
    holdsMessages (checkUsername data st).merr
      (msgs ++ requiredMessages data "username" "Username is required") := by
  unfold checkUsername requiredMessages
  cases data.GetOk "username" with
  | none => exact holdsMessages_append _ _ _ h
  | some u => simpa using h

theorem checkPassword_messages (data : FieldData) (st : WriteState)
    (msgs : List String) (h : holdsMessages st.merr msgs) :
    holdsMessages (checkPassword data st).merr
      (msgs ++ requiredMessages data "password" "Password is required") := by
  unfold checkPassword requiredMessages
  cases data.GetOk "password" with
  | none => exact holdsMessages_append _ _ _ h
  | some u => simpa using h

theorem checkRegion_messages (data : FieldData) (st : WriteState)
    (msgs : List String) (h : holdsMessages st.merr msgs) :
    holdsMessages (checkRegion data st).merr
      (msgs ++ requiredMessages data "region" "Region is required") := by
  unfold checkRegion requiredMessages
  cases data.GetOk "region" with
  | none => exact holdsMessages_append _ _ _ h
  | some u => simpa using h

theorem validation_messages (w : World) (data : FieldData) (config : vmwareConfig) :
    holdsMessages
      (checkRegion data (checkPassword data (checkUsername data
        (checkAPIURL w data (checkAuthenticationURL w data ⟨none, config⟩))))).merr
      (fieldMessages w data) := by
  have h0 : holdsMessages (WriteState.mk none config).merr [] := Or.inl ⟨rfl, rfl⟩
  have h1 := checkAuthenticationURL_messages w data _ _ h0
  have h2 := checkAPIURL_messages w data _ _ h1
  have h3 := checkUsername_messages data _ _ h2
  have h4 := checkPassword_messages data _ _ h3
  have h5 := checkRegion_messages data _ _ h4
  simpa [fieldMessages] using h5

theorem fieldMessages_eq_nil_iff (w : World) (data : FieldData) :
    fieldMessages w data = [] ↔ fieldsValid w data = true := by
  unfold fieldMessages fieldsValid authenticationURLMessages apiURLMessages requiredMessages
  cases data.GetOk "authentication_url" <;> cases data.GetOk "api_url" <;>
    cases data.GetOk "username" <;> cases data.GetOk "password" <;>
    cases data.GetOk "region" <;> simp

theorem pathConfigWrite_after_lookup (w : World) (s : Storage) (op : Operation)
    (data : FieldData) (found : Option vmwareConfig)
    (hg : (getConfig w s).1 = .ok found) (hu : ¬ (found = none ∧ op = .UpdateOperation)) :
    (fieldsValid w data = false →
      pathConfigWrite w s op data =
        (.returned (some (ErrorResponse (w.multierrorFormat (fieldMessages w data)))) none, s,
          [.storageGet configStoragePath])) ∧
    (fieldsValid w data = true →
      ∃ config, pathConfigWrite w s op data =
        (.returned none (saveConfig w config s).1, (saveConfig w config s).2.1,
          .storageGet configStoragePath :: (saveConfig w config s).2.2)) := by
  have hge := getConfig_eq w s _ hg
  have hm := ErrorOrNil_of_holdsMessages _ _
    (validation_messages w data (found.getD vmwareConfig.new))
  constructor
  · intro hv
    have hne : fieldMessages w data ≠ [] := by
      intro h
      rw [(fieldMessages_eq_nil_iff w data).mp h] at hv
      cases hv
    rw [if_neg hne] at hm
    unfold pathConfigWrite
    rw [hge]
    simp only [hu, if_false, hm]
  · intro hv
    rw [if_pos ((fieldMessages_eq_nil_iff w data).mpr hv)] at hm
    refine ⟨(checkRegion data (checkPassword data (checkUsername data
      (checkAPIURL w data (checkAuthenticationURL w data
        ⟨none, found.getD vmwareConfig.new⟩))))).config, ?_⟩
    unfold pathConfigWrite
    rw [hge]
    simp only [hu, if_false, hm]
    rfl

theorem savesConfig_saveConfig (w : World) (config : vmwareConfig) (s : Storage)
    (e : Effect) : savesConfig (e :: (saveConfig w config s).2.2) = true := by
  unfold saveConfig savesConfig
  cases w.encodeJSON config with
  | error err => simp
  | ok entry => cases w.storagePutErr <;> simp

/-- C10, as amended. When the configuration lookup succeeds and the request is
not an update of a missing configuration, `pathConfigWrite` calls `saveConfig`
if and only if all five fields are present and both URLs pass the URL
validation; when it does not call it the storage is unchanged, and in the case
of missing or invalid fields the result is the error response whose text is
made of one message for each such field. When the operation is an update and
nothing is stored, the result is the error
`config not found during update operation`, and when the lookup fails it is the
lookup error, both with a nil response and whatever the fields are. -/
theorem config_write_all_or_nothing (w : World) (s : Storage) (op : Operation)
    (data : FieldData) :
    (savesConfig (pathConfigWrite w s op data).2.2 = true ↔
      (∃ found, (getConfig w s).1 = .ok found ∧ ¬ (found = none ∧ op = .UpdateOperation))
        ∧ fieldsValid w data = true) ∧
    (savesConfig (pathConfigWrite w s op data).2.2 = false →
      (pathConfigWrite w s op data).2.1 = s) ∧
    (∀ found, (getConfig w s).1 = .ok found → ¬ (found = none ∧ op = .UpdateOperation) →
      fieldsValid w data = false →
        (pathConfigWrite w s op data).1 =
          .returned (some (ErrorResponse (w.multierrorFormat (fieldMessages w data)))) none) ∧
    ((getConfig w s).1 = .ok none → op = .UpdateOperation →
      (pathConfigWrite w s op data).1 =
        .returned none (some "config not found during update operation")) ∧
    (∀ err, (getConfig w s).1 = .error err →
      (pathConfigWrite w s op data).1 = .returned none (some err)) := by
  have hlookup_err : ∀ err, (getConfig w s).1 = .error err →
      pathConfigWrite w s op data =
        (.returned none (some err), s, [.storageGet configStoragePath]) := by
    intro err h
    simp [pathConfigWrite, getConfig_eq w s _ h]
  have hupdate : (getConfig w s).1 = .ok none → op = .UpdateOperation →
      pathConfigWrite w s op data =
        (.returned none (some "config not found during update operation"), s,
          [.storageGet configStoragePath]) := by
    intro h hop
    simp [pathConfigWrite, getConfig_eq w s _ h, hop]
  refine ⟨?_, ?_, ?_, ?_, ?_⟩
  · rcases hg : (getConfig w s).1 with err | found
    · rw [hlookup_err err hg]
      simp [savesConfig]
    · by_cases hu : found = none ∧ op = .UpdateOperation
      · obtain ⟨hf, hop⟩ := hu
        subst hf
        rw [hupdate hg hop]
        simp [savesConfig, hop]
      · obtain ⟨hbad, hgood⟩ := pathConfigWrite_after_lookup w s op data found hg hu
        cases hv : fieldsValid w data
        · rw [hbad hv]
          simp [savesConfig]
        · obtain ⟨config, hc⟩ := hgood hv
          rw [hc]
          simp only [savesConfig_saveConfig, true_iff, and_true]
          exact ⟨found, rfl, hu⟩
  · rcases hg : (getConfig w s).1 with err | found
    · intro _
      rw [hlookup_err err hg]
    · by_cases hu : found = none ∧ op = .UpdateOperation
      · obtain ⟨hf, hop⟩ := hu
        subst hf
        intro _
        rw [hupdate hg hop]
      · obtain ⟨hbad, hgood⟩ := pathConfigWrite_after_lookup w s op data found hg hu
        cases hv : fieldsValid w data
        · intro _
          rw [hbad hv]
        · obtain ⟨config, hc⟩ := hgood hv
          rw [hc]
          intro hs
          rw [savesConfig_saveConfig] at hs
          cases hs
  · intro found hg hu hv
    rw [(pathConfigWrite_after_lookup w s op data found hg hu).1 hv]
  · intro hg hop
    rw [hupdate hg hop]
  · intro err hg
    rw [hlookup_err err hg]

/-- C10, counterexample to the claim as worded: an update request without
fields, on a storage that holds no configuration. The claim requires an error
response with a message for each of the five missing fields; the handler
returns a nil response and the error `config not found during update
operation`. -/
theorem config_write_claim_fails_on_update_without_config :
    ¬ ConfigWriteAllOrNothing sampleWorld [] .UpdateOperation { Raw := [] } := by
  intro h
  have hr : (pathConfigWrite sampleWorld [] .UpdateOperation { Raw := [] }).1
      = .returned none (some "config not found during update operation") := rfl
  have hcond : ¬ (fieldsValid sampleWorld { Raw := [] } = true
      ∧ (Operation.UpdateOperation = .UpdateOperation →
          List.lookup configStoragePath ([] : Storage) ≠ none)) := by
    intro hc
    exact absurd hc.1 (by decide)
  have h2 := (h.2 hcond).2
  rw [hr] at h2
  cases h2

/-! ## base64 -/

theorem or_shift_three (a b c : Nat) (hb : b < 256) (hc : c < 256) :
    a <<< 16 ||| b <<< 8 ||| c = a * 65536 + b * 256 + c := by
  have h1 : a <<< 16 ||| b <<< 8 = 2 ^ 8 * (a * 256 + b) := by
    rw [Nat.shiftLeft_eq, Nat.shiftLeft_eq]
    have hlt : b * 2 ^ 8 < 2 ^ 16 := by omega
    have e : a * 2 ^ 16 = 2 ^ 16 * a := by ring
    rw [e, ← Nat.mul_add_lt_is_or hlt a]
    ring
  rw [h1, ← Nat.mul_add_lt_is_or (by omega : c < 2 ^ 8)]
  ring

theorem or_shift_two (a b : Nat) (hb : b < 256) :
    a <<< 16 ||| b <<< 8 = a * 65536 + b * 256 := by
  have := or_shift_three a b 0 hb (by decide)
  simpa using this

theorem and_63 (x : Nat) : x &&& 0x3f = x % 64 :=
  Nat.and_pow_two_sub_one_eq_mod x 6

theorem base64Value_base64Char (i : Nat) (h : i < 64) :
    base64Value (base64Char i) = some i := by
  have key : ∀ j : Fin 64, base64Value (base64Char j.val) = some j.val := by decide
  exact key ⟨i, h⟩

theorem base64Char_ne_pad (i : Nat) (h : i < 64) : base64Char i ≠ padChar := by
  have key : ∀ j : Fin 64, base64Char j.val ≠ padChar := by decide
  exact key ⟨i, h⟩

theorem byteOf_eq (x : Nat) (a : Byte) (h : x % 256 = a.val) : byteOf x = a :=
  Fin.ext h

theorem base64Decode_base64Encode (bs : Bytes) :
    base64Decode (base64Encode bs) = some bs := by
  induction bs using base64Encode.induct with
  | case1 a b c rest ih =>
    have ha := a.isLt
    have hb := b.isLt
    have hc := c.isLt
    simp only [base64Encode, or_shift_three a.val b.val c.val hb hc, and_63,
      Nat.shiftRight_eq_div_pow]
    have e0 : (a.val * 65536 + b.val * 256 + c.val) / 2 ^ 18 % 64 = a.val / 4 := by omega
    have e1 : (a.val * 65536 + b.val * 256 + c.val) / 2 ^ 12 % 64
        = a.val % 4 * 16 + b.val / 16 := by omega
    have e2 : (a.val * 65536 + b.val * 256 + c.val) / 2 ^ 6 % 64
        = b.val % 16 * 4 + c.val / 64 := by omega
    have e3 : (a.val * 65536 + b.val * 256 + c.val) % 64 = c.val % 64 := by omega
    rw [e0, e1, e2, e3]
    unfold base64Decode
    rw [if_neg (fun h => base64Char_ne_pad _ (by omega) h.1),
      if_neg (fun h => base64Char_ne_pad _ (by omega) h.1)]
    rw [base64Value_base64Char _ (by omega), base64Value_base64Char _ (by omega),
      base64Value_base64Char _ (by omega), base64Value_base64Char _ (by omega), ih]
    simp only [Option.some.injEq, List.cons.injEq, and_true]
    exact ⟨byteOf_eq _ _ (by omega), byteOf_eq _ _ (by omega), byteOf_eq _ _ (by omega)⟩
  | case2 a b =>
    have ha := a.isLt
    have hb := b.isLt
    simp only [base64Encode, or_shift_two a.val b.val hb, and_63, Nat.shiftRight_eq_div_pow]
    have e0 : (a.val * 65536 + b.val * 256) / 2 ^ 18 % 64 = a.val / 4 := by omega
    have e1 : (a.val * 65536 + b.val * 256) / 2 ^ 12 % 64 = a.val % 4 * 16 + b.val / 16 := by
      omega
    have e2 : (a.val * 65536 + b.val * 256) / 2 ^ 6 % 64 = b.val % 16 * 4 := by omega
    rw [e0, e1, e2]
    unfold base64Decode
    rw [if_neg (fun h => base64Char_ne_pad _ (by omega) h.1), if_pos ⟨rfl, rfl⟩]
    rw [base64Value_base64Char _ (by omega), base64Value_base64Char _ (by omega),
      base64Value_base64Char _ (by omega)]
    simp only [Option.some.injEq, List.cons.injEq, and_true]
    exact ⟨byteOf_eq _ _ (by omega), byteOf_eq _ _ (by omega)⟩
  | case3 a =>
    have ha := a.isLt
    simp only [base64Encode, Nat.shiftLeft_eq, and_63, Nat.shiftRight_eq_div_pow]
    have e0 : a.val * 2 ^ 16 / 2 ^ 18 % 64 = a.val / 4 := by omega
    have e1 : a.val * 2 ^ 16 / 2 ^ 12 % 64 = a.val % 4 * 16 := by omega
    rw [e0, e1]
    unfold base64Decode
    rw [if_pos ⟨rfl, rfl, rfl⟩]
    rw [base64Value_base64Char _ (by omega), base64Value_base64Char _ (by omega)]
    simp only [Option.some.injEq, List.cons.injEq, and_true]
    exact byteOf_eq _ _ (by omega)
  | case4 => rfl

theorem base64DecodeString_base64EncodeToString (bs : Bytes) :
    base64DecodeString (base64EncodeToString bs) = some bs :=
  base64Decode_base64Encode bs

/-! ## The successful run of `pathAccessTokenRead` -/

theorem pathAccessTokenRead_success (w : World) (s : Storage) (resp : Response)
    (h : (pathAccessTokenRead w s).1 = .returned (some resp) none) :
    ∃ config cp kp sg u c signer text,
      (getConfig w s).1 = .ok (some config) ∧
      generateSelfSignedCertificate w.crypto config.Region = ⟨some cp, some kp, some sg, none⟩ ∧
      w.parseURL config.AuthenticationURL = .ok (some u) ∧
      w.stsNewClient (soapNewClient (withUser u config) true) = .ok c ∧
      w.stsIssue c (tokenRequest (clientCertificate w cp kp) (withUser u config)) = .ok signer ∧
      (packageToken w signer.Token).1 = some text ∧
      resp = { Data := [("token", .str text), ("expires", .str signer.Expires.Format),
                        ("signature", .bytes sg)] } ∧
      (pathAccessTokenRead w s).2 =
        [.storageGet configStoragePath,
         .stsNewClient (soapNewClient (withUser u config) true),
         .stsIssue (tokenRequest (clientCertificate w cp kp) (withUser u config))]
        ++ (packageToken w signer.Token).2 := by
  rcases hcfg : (getConfig w s).1 with err | _ | config
  · simp [pathAccessTokenRead, getConfig_eq w s _ hcfg] at h
  · simp [pathAccessTokenRead, getConfig_eq w s _ hcfg] at h
  · have hg := getConfig_eq w s _ hcfg
    cases herr : (generateSelfSignedCertificate w.crypto config.Region).err with
    | some e => simp [pathAccessTokenRead, hg, herr] at h
    | none =>
      obtain ⟨cp, kp, sg, hcert⟩ := certificate_blocks_of_no_error _ _ herr
      rcases hparse : w.parseURL config.AuthenticationURL with e | _ | u
      · simp [pathAccessTokenRead, hg, hcert, hparse] at h
      · simp [pathAccessTokenRead, hg, hcert, hparse] at h
      · rcases hnew : w.stsNewClient (soapNewClient (withUser u config) true) with e | c
        · simp [pathAccessTokenRead, hg, hcert, hparse, hnew] at h
        · rcases hissue : w.stsIssue c
            (tokenRequest (clientCertificate w cp kp) (withUser u config)) with e | signer
          · simp [pathAccessTokenRead, hg, hcert, hparse, hnew, hissue] at h
          · cases hpack : (packageToken w signer.Token).1 with
            | none => simp [pathAccessTokenRead, hg, hcert, hparse, hnew, hissue, hpack] at h
            | some text =>
              refine ⟨config, cp, kp, sg, u, c, signer, text, rfl, hcert, hparse, hnew,
                hissue, hpack, ?_, ?_⟩
              · simp [pathAccessTokenRead, hg, hcert, hparse, hnew, hissue, hpack] at h
                exact h.symm
              · simp [pathAccessTokenRead, hg, hcert, hparse, hnew, hissue, hpack]

/-! ## CRC-32: the table-driven update is the shift register -/

theorem crc32TableStep_eq (x : Nat) : crc32TableStep x = crc32Shift x := by
  unfold crc32TableStep crc32Shift crc32IEEE
  rw [Nat.and_one_is_mod, Nat.shiftRight_eq_div_pow]

theorem crc32Shift_eq (x : Nat) :
    crc32Shift x = x >>> 1 ^^^ (if x.testBit 0 then 0xEDB88320 else 0) := by
  unfold crc32Shift
  rw [Nat.testBit_zero, Nat.shiftRight_eq_div_pow]
  by_cases h : x % 2 = 1 <;> simp [h]

theorem shiftRight_xor (a b k : Nat) : (a ^^^ b) >>> k = a >>> k ^^^ b >>> k := by
  apply Nat.eq_of_testBit_eq
  intro i
  simp [Nat.testBit_shiftRight, Nat.testBit_xor]

theorem crc32Shift_xor (a b : Nat) : crc32Shift (a ^^^ b) = crc32Shift a ^^^ crc32Shift b := by
  have key : ∀ p q r s : Nat, (p ^^^ q) ^^^ (r ^^^ s) = (p ^^^ r) ^^^ (q ^^^ s) := by
    intro p q r s
    apply Nat.eq_of_testBit_eq
    intro i
    simp only [Nat.testBit_xor]
    cases p.testBit i <;> cases q.testBit i <;> cases r.testBit i <;> cases s.testBit i <;> rfl
  simp only [crc32Shift_eq, shiftRight_xor, Nat.testBit_xor]
  rw [← key]
  congr 1
  cases a.testBit 0 <;> cases b.testBit 0 <;> simp

theorem crc32Shift_iterate_xor (k a b : Nat) :
    crc32Shift^[k] (a ^^^ b) = crc32Shift^[k] a ^^^ crc32Shift^[k] b := by
  induction k generalizing a b with
  | zero => rfl
  | succ k ih => simp only [Function.iterate_succ_apply, crc32Shift_xor, ih]

theorem crc32Shift_iterate_shiftLeft (k y : Nat) : crc32Shift^[k] (y <<< k) = y := by
  induction k with
  | zero => simp
  | succ k ih =>
    rw [Function.iterate_succ_apply]
    have h : crc32Shift (y <<< (k + 1)) = y <<< k := by
      unfold crc32Shift
      have e : y <<< (k + 1) = y <<< k * 2 := by
        simp only [Nat.shiftLeft_eq, pow_succ]
        ring
      rw [e, if_neg (by omega)]
      omega
    rw [h, ih]

theorem split_low_octet (x : Nat) : x = x % 2 ^ 8 ^^^ (x >>> 8) <<< 8 := by
  apply Nat.eq_of_testBit_eq
  intro i
  simp only [Nat.testBit_xor, Nat.testBit_mod_two_pow, Nat.testBit_shiftLeft,
    Nat.testBit_shiftRight]
  by_cases h : i < 8
  · have h' : ¬ 8 ≤ i := by omega
    simp [h, h']
  · have e : 8 + (i - 8) = i := by omega
    simp [h, e, Nat.le_of_not_lt h]

theorem crc32Shift_eight (x : Nat) :
    crc32Shift^[8] x = crc32Shift^[8] (x % 256) ^^^ x >>> 8 := by
  conv_lhs => rw [split_low_octet x]
  rw [crc32Shift_iterate_xor, crc32Shift_iterate_shiftLeft]
  rfl

theorem xor_octet_low (c v : Nat) (hv : v < 256) : (c ^^^ v) % 256 = c % 256 ^^^ v := by
  apply Nat.eq_of_testBit_eq
  intro i
  have e : (256 : Nat) = 2 ^ 8 := rfl
  rw [e, Nat.testBit_mod_two_pow, Nat.testBit_xor, Nat.testBit_xor, Nat.testBit_mod_two_pow]
  by_cases h : i < 8
  · simp [h]
  · have hv' : v.testBit i = false :=
      Nat.testBit_lt_two_pow
        (lt_of_lt_of_le hv (Nat.pow_le_pow_right (by decide : 2 > 0) (by omega : 8 ≤ i)))
    simp [h, hv']

theorem xor_octet_high (c v : Nat) (hv : v < 256) : (c ^^^ v) >>> 8 = c >>> 8 := by
  rw [shiftRight_xor]
  have : v >>> 8 = 0 := by
    rw [Nat.shiftRight_eq_div_pow]
    omega
  rw [this, Nat.xor_zero]

theorem crc32_table_step (c : Nat) (v : Byte) :
    crc32Table (c % 256 ^^^ v.val) ^^^ c >>> 8 = crc32Feed c v := by
  have hstep : crc32TableStep = crc32Shift := funext crc32TableStep_eq
  have hfeed : crc32Feed c v = crc32Shift^[8] (c ^^^ v.val) := rfl
  rw [hfeed, crc32Shift_eight, xor_octet_low c v.val v.isLt, xor_octet_high c v.val v.isLt]
  unfold crc32Table
  rw [hstep]

theorem crc32Shift_lt (x : Nat) (h : x < 2 ^ 32) : crc32Shift x < 2 ^ 32 := by
  unfold crc32Shift
  split
  · exact Nat.xor_lt_two_pow (by omega) (by decide)
  · omega

theorem crc32Feed_lt (c : Nat) (v : Byte) (h : c < 2 ^ 32) : crc32Feed c v < 2 ^ 32 := by
  have hx : c ^^^ v.val < 2 ^ 32 := Nat.xor_lt_two_pow h (by have := v.isLt; omega)
  unfold crc32Feed
  exact crc32Shift_lt _ (crc32Shift_lt _ (crc32Shift_lt _ (crc32Shift_lt _ (crc32Shift_lt _
    (crc32Shift_lt _ (crc32Shift_lt _ (crc32Shift_lt _ hx)))))))

theorem crc32_foldl_lt (data : Bytes) (c : Nat) (h : c < 2 ^ 32) :
    data.foldl crc32Feed c < 2 ^ 32 := by
  induction data generalizing c with
  | nil => exact h
  | cons v rest ih => exact ih _ (crc32Feed_lt c v h)

/-- Go's `crc32.Update` from a zero checksum computes the CRC-32 of the data. -/
theorem crc32Update_eq_crc32Spec (data : Bytes) : crc32Update 0 data = crc32Spec data := by
  unfold crc32Update crc32Spec
  have hfold : data.foldl (fun c v => crc32Table (c % 256 ^^^ v.val) ^^^ c >>> 8)
      ((0 ^^^ 0xffffffff) % 2 ^ 32) = data.foldl crc32Feed 0xFFFFFFFF := by
    have e : (0 ^^^ 0xffffffff) % 2 ^ 32 = 0xFFFFFFFF := by decide
    rw [e]
    exact List.foldl_ext _ _ _ (fun c v _ => crc32_table_step c v)
  rw [hfold]
  exact Nat.mod_eq_of_lt (Nat.xor_lt_two_pow (crc32_foldl_lt data _ (by decide)) (by decide))

set_option maxRecDepth 100000 in
/-- The check value of CRC-32 (the nine digits `123456789`). -/
theorem crc32Spec_check :
    crc32Spec [byteOf 49, byteOf 50, byteOf 51, byteOf 52, byteOf 53, byteOf 54, byteOf 55,
      byteOf 56, byteOf 57] = 0xCBF43926 := by
  decide

/-! ## gzip -/

theorem lor_shiftLeft (x b i : Nat) (h : x < 2 ^ i) : x ||| b <<< i = x + b * 2 ^ i := by
  rw [Nat.shiftLeft_eq, Nat.lor_comm, Nat.mul_comm b, ← Nat.mul_add_lt_is_or h b]
  ring

theorem uint32LE_putUint32LE (v : Nat) :
    uint32LE (byteOf v) (byteOf (v >>> 8)) (byteOf (v >>> 16)) (byteOf (v >>> 24))
      = v % 2 ^ 32 := by
  simp only [uint32LE, byteOf, Nat.shiftRight_eq_div_pow]
  rw [lor_shiftLeft _ _ 8 (by omega), lor_shiftLeft _ _ 16 (by omega),
    lor_shiftLeft _ _ 24 (by omega)]
  omega

theorem packageToken_ok (w : World) (token : Bytes) (text : String)
    (h : (packageToken w token).1 = some text) :
    ∃ o1 o2 o3,
      w.flate.emit [.write token] = .ok o1 ∧
      w.flate.emit [.write token, .flush] = .ok o2 ∧
      w.flate.emit [.write token, .flush, .close] = .ok o3 ∧
      text = base64EncodeToString (gzipHeader ++ o1 ++ o2 ++ o3
        ++ putUint32LE (crc32Update 0 token) ++ putUint32LE (token.length % 2 ^ 32)) ∧
      (packageToken w token).2 = [.gzipWrite token, .gzipFlush, .gzipClose] := by
  rcases h1 : w.flate.emit [.write token] with e | o1
  · simp [packageToken, GzipWriter.Write, GzipWriter.compress, gzipNewWriter, h1] at h
  · rcases h2 : w.flate.emit [.write token, .flush] with e | o2
    · simp [packageToken, GzipWriter.Write, GzipWriter.Flush, GzipWriter.compress,
        gzipNewWriter, h1, h2] at h
    · rcases h3 : w.flate.emit [.write token, .flush, .close] with e | o3
      · simp [packageToken, GzipWriter.Write, GzipWriter.Flush, GzipWriter.Close,
          GzipWriter.compress, gzipNewWriter, h1, h2, h3] at h
      · refine ⟨o1, o2, o3, rfl, rfl, rfl, ?_, ?_⟩
        · simp [packageToken, GzipWriter.Write, GzipWriter.Flush, GzipWriter.Close,
            GzipWriter.compress, gzipNewWriter, h1, h2, h3] at h
          rw [← h]
          simp
        · simp [packageToken, GzipWriter.Write, GzipWriter.Flush, GzipWriter.Close,
            GzipWriter.compress, gzipNewWriter, h1, h2, h3]

theorem stream_three (flate : FlateWriter) (a b c : FlateOp) (o1 o2 o3 : Bytes)
    (h1 : flate.emit [a] = .ok o1) (h2 : flate.emit [a, b] = .ok o2)
    (h3 : flate.emit [a, b, c] = .ok o3) :
    flate.stream [a, b, c] = some (o1 ++ o2 ++ o3) := by
  simp [FlateWriter.stream, List.range_succ, h1, h2, h3]

theorem gunzip_stream (data strm : Bytes)
    (h : ∀ rest, inflate (strm ++ rest) = some (data, rest)) :
    gunzip (gzipHeader ++ strm ++ putUint32LE (crc32Update 0 data)
      ++ putUint32LE (data.length % 2 ^ 32)) = some data := by
  have hc : crc32Spec data % 2 ^ 32 = crc32Spec data := by
    rw [← crc32Update_eq_crc32Spec]
    unfold crc32Update
    exact Nat.mod_mod _ _
  have hs : data.length % 2 ^ 32 % 2 ^ 32 = data.length % 2 ^ 32 := Nat.mod_mod _ _
  have ht := h (putUint32LE (crc32Spec data) ++ putUint32LE (data.length % 2 ^ 32))
  rw [crc32Update_eq_crc32Spec]
  simp only [gzipHeader, List.cons_append, List.nil_append, List.append_assoc, gunzip]
  rw [if_pos (by decide)]
  simp only [List.append_assoc] at ht
  rw [ht]
  simp only [putUint32LE, List.cons_append, List.nil_append, uint32LE_putUint32LE, hc, hs]
  simp

/-- C2: when `pathAccessTokenRead` succeeds, the `token` field of the response
is the padded standard base64 text of the buffer behind the gzip writer;
decoding that text gives the buffer back, and the buffer is a complete gzip
member: the ten header octets, the DEFLATE stream of the `Write`, `Flush` and
`Close`, the CRC-32 of the token and its length. Read by `gunzip` (the
inflater of RFC 1951 and the CRC-32 of RFC 1952, both defined independently of
the writer) it gives exactly the token the STS issued. What `compress/flate`
emits is the library's business: the statement holds whenever its output for
the issued token is a DEFLATE stream of that token. -/
theorem token_is_base64_of_gzip (w : World) (s : Storage) (resp : Response)
    (hflate : ∀ c req signer, w.stsIssue c req = .ok signer → w.flate.RoundTrips signer.Token)
    (h : (pathAccessTokenRead w s).1 = .returned (some resp) none) :
    ∃ c req signer gz,
      w.stsIssue c req = .ok signer ∧
      Effect.stsIssue req ∈ (pathAccessTokenRead w s).2 ∧
      resp.Data.lookup "token" = some (.str (base64EncodeToString gz)) ∧
      base64DecodeString (base64EncodeToString gz) = some gz ∧
      gunzip gz = some signer.Token := by
  obtain ⟨config, cp, kp, sg, u, c, signer, text, _, _, _, _, hissue, hpack, hresp, htrace⟩ :=
    pathAccessTokenRead_success w s resp h
  obtain ⟨o1, o2, o3, h1, h2, h3, htext, _⟩ := packageToken_ok w signer.Token text hpack
  obtain ⟨strm, hstrm, hinflate⟩ := hflate c _ signer hissue
  rw [stream_three w.flate _ _ _ o1 o2 o3 h1 h2 h3] at hstrm
  cases hstrm
  refine ⟨c, _, signer, gzipHeader ++ o1 ++ o2 ++ o3 ++ putUint32LE (crc32Update 0 signer.Token)
    ++ putUint32LE (signer.Token.length % 2 ^ 32), hissue, ?_, ?_,
    base64DecodeString_base64EncodeToString _, ?_⟩
  · rw [htrace]
    simp
  · rw [hresp, htext]
    rfl
  · have := gunzip_stream signer.Token (o1 ++ o2 ++ o3) hinflate
    simpa [List.append_assoc] using this

theorem storedWriter_roundTrips_sample : storedWriter.RoundTrips sampleSigner.Token := by
  refine ⟨_, stream_three storedWriter _ _ _ _ _ _ rfl rfl rfl, ?_⟩
  intro rest
  have hval : ∀ n, (byteOf n).val = n % 256 := fun _ => rfl
  have t1 : Nat.testBit 1 1 = false := by decide
  have t2 : Nat.testBit 1 2 = false := by decide
  simp [sampleSigner, inflate, inflateBlocks, BitReader.readBits, BitReader.readBit,
    inflateStored, hval, t1, t2]

theorem pathAccessTokenRead_sampleWorld :
    (pathAccessTokenRead sampleWorld sampleStorage).1 = .returned (some sampleResponse) none := by
  rfl

theorem token_is_base64_of_gzip_witness :
    (∀ c req signer, sampleWorld.stsIssue c req = .ok signer →
      sampleWorld.flate.RoundTrips signer.Token) ∧
    (pathAccessTokenRead sampleWorld sampleStorage).1 = .returned (some sampleResponse) none ∧
    ∃ c req signer gz,
      sampleWorld.stsIssue c req = .ok signer ∧
      Effect.stsIssue req ∈ (pathAccessTokenRead sampleWorld sampleStorage).2 ∧
      sampleResponse.Data.lookup "token" = some (.str (base64EncodeToString gz)) ∧
      base64DecodeString (base64EncodeToString gz) = some gz ∧
      gunzip gz = some signer.Token :=
  have hflate : ∀ c req signer, sampleWorld.stsIssue c req = .ok signer →
      sampleWorld.flate.RoundTrips signer.Token := by
    intro c req signer h
    cases h
    exact storedWriter_roundTrips_sample
  ⟨hflate, pathAccessTokenRead_sampleWorld,
    token_is_base64_of_gzip sampleWorld sampleStorage sampleResponse hflate
      pathAccessTokenRead_sampleWorld⟩

/-! ### Known answers of the readers -/

set_option maxRecDepth 100000 in
/-- A block with the fixed codes (the literals `abc`), a sync marker and an
empty final stored block: the shape a flushed and closed compressor gives. -/
theorem inflate_fixed_block :
    inflate [byteOf 0x4a, byteOf 0x4c, byteOf 0x4a, byteOf 0x06, byteOf 0x00, byteOf 0x00,
      byteOf 0x00, byteOf 0xff, byteOf 0xff, byteOf 0x01, byteOf 0x00, byteOf 0x00, byteOf 0xff,
      byteOf 0xff, byteOf 7]
      = some ([byteOf 97, byteOf 98, byteOf 99], [byteOf 7]) := by
  decide

set_option maxRecDepth 100000 in
/-- A length and distance pair: ten times `a` as two literals and a match. -/
theorem inflate_match_block :
    inflate [byteOf 0x4b, byteOf 0x4c, byteOf 0x84, byteOf 0x01, byteOf 0x00]
      = some (List.replicate 10 (byteOf 97), []) := by
  decide

set_option maxRecDepth 1000000 in
set_option maxHeartbeats 4000000 in
/-- A block with dynamic codes, as written by zlib with Huffman-only coding for
four times `aaaaaaaabbbbccd`. -/
theorem inflate_dynamic_block :
    inflate ([5, 193, 1, 1, 0, 0, 8, 195, 160, 172, 236, 246, 207, 32, 0, 84, 109, 7, 80, 181,
      29, 64, 213, 118, 0, 85, 219, 61].map byteOf)
      = some (([97, 97, 97, 97, 97, 97, 97, 97, 98, 98, 98, 98, 99, 99, 100, 97, 97, 97, 97, 97,
        97, 97, 97, 98, 98, 98, 98, 99, 99, 100, 97, 97, 97, 97, 97, 97, 97, 97, 98, 98, 98, 98,
        99, 99, 100, 97, 97, 97, 97, 97, 97, 97, 97, 98, 98, 98, 98, 99, 99, 100].map byteOf),
        []) := by
  decide

set_option maxRecDepth 100000 in
/-- An empty input and a truncated stream are refused. -/
theorem inflate_refuses_truncated :
    inflate [] = none ∧ inflate [byteOf 0x4a, byteOf 0x4c] = none := by
  decide

set_option maxRecDepth 100000 in
/-- The gzip member that zlib writes for `abc` (fixed codes, final block). -/
theorem gunzip_zlib_member :
    gunzip ([0x1f, 0x8b, 0x08, 0x00, 0x00, 0x00, 0x00, 0x00, 0x02, 0x03, 0x4b, 0x4c, 0x4a,
      0x06, 0x00, 0xc2, 0x41, 0x24, 0x35, 0x03, 0x00, 0x00, 0x00].map byteOf)
      = some [byteOf 97, byteOf 98, byteOf 99] := by
  decide

set_option maxRecDepth 100000 in
/-- A member whose CRC-32 is wrong, and a header followed by the trailer alone
(no DEFLATE stream), are refused. -/
theorem gunzip_refuses :
    gunzip ([0x1f, 0x8b, 0x08, 0x00, 0x00, 0x00, 0x00, 0x00, 0x02, 0x03, 0x4b, 0x4c, 0x4a,
      0x06, 0x00, 0xc3, 0x41, 0x24, 0x35, 0x03, 0x00, 0x00, 0x00].map byteOf) = none ∧
    gunzip ([0x1f, 0x8b, 0x08, 0x00, 0x00, 0x00, 0x00, 0x00, 0x00, 0xff, 0xc2, 0x41, 0x24,
      0x35, 0x03, 0x00, 0x00, 0x00].map byteOf) = none := by
  decide

/-! ## `time`: the calendar fields -/

theorem isLeap_iff (year : Int) :
    isLeap year = true ↔ year % 4 = 0 ∧ (year % 100 ≠ 0 ∨ year % 400 = 0) := by
  simp [isLeap]

theorem isLeap_offset (y : Nat) :
    isLeap ((y : Int) + absoluteZeroYear) = true ↔
      (y + 1) % 4 = 0 ∧ ((y + 1) % 100 ≠ 0 ∨ (y + 1) % 400 = 0) := by
  rw [isLeap_iff]
  unfold absoluteZeroYear
  omega

theorem daysSinceEpoch_offset (y : Nat) :
    daysSinceEpoch ((y : Int) + absoluteZeroYear)
      = 146097 * (y / 400) + 36524 * (y % 400 / 100) + 1461 * (y % 100 / 4) + 365 * (y % 4) := by
  have e : ((y : Int) + absoluteZeroYear - absoluteZeroYear).toNat = y := by simp
  simp only [daysSinceEpoch, e, daysPer400Years, daysPer100Years, daysPer4Years]
  omega

/-- The cycle counts of `absYearDay`, as linear facts. -/
theorem year_cycles (abs : Nat) :
    ∃ a b c e yday : Nat,
      abs / 86400 = 146097 * a + 36524 * b + 1461 * c + 365 * e + yday ∧
      b ≤ 3 ∧ c ≤ 24 ∧ e ≤ 3 ∧
      (yday < 365 ∨ (yday = 365 ∧ e = 3 ∧ (c < 24 ∨ b = 3))) ∧
      absYearDay abs
        = (((400 * a + 100 * b + 4 * c + e : Nat) : Int) + absoluteZeroYear, yday) := by
  generalize hD : abs / 86400 = D
  obtain ⟨a, ha, ea⟩ : ∃ q, (146097 * q ≤ D ∧ D < 146097 * q + 146097) ∧ D / 146097 = q :=
    ⟨_, by omega, rfl⟩
  obtain ⟨r1, hr1⟩ : ∃ r, D = 146097 * a + r := ⟨D - 146097 * a, by omega⟩
  obtain ⟨b0, hb0, eb0⟩ : ∃ q, (36524 * q ≤ r1 ∧ r1 < 36524 * q + 36524) ∧ r1 / 36524 = q :=
    ⟨_, by omega, rfl⟩
  obtain ⟨b, hb⟩ : ∃ b, b = b0 - b0 / 4 := ⟨_, rfl⟩
  have hb3 : b ≤ 3 ∧ (b0 ≤ 3 → b = b0) ∧ (b0 = 4 → b = 3) := by omega
  obtain ⟨r2, hr2⟩ : ∃ r, r1 = 36524 * b + r := ⟨r1 - 36524 * b, by omega⟩
  obtain ⟨c, hc, ec⟩ : ∃ q, (1461 * q ≤ r2 ∧ r2 < 1461 * q + 1461) ∧ r2 / 1461 = q :=
    ⟨_, by omega, rfl⟩
  obtain ⟨r3, hr3⟩ : ∃ r, r2 = 1461 * c + r := ⟨r2 - 1461 * c, by omega⟩
  obtain ⟨e0, he0, ee0⟩ : ∃ q, (365 * q ≤ r3 ∧ r3 < 365 * q + 365) ∧ r3 / 365 = q :=
    ⟨_, by omega, rfl⟩
  obtain ⟨e, he⟩ : ∃ e, e = e0 - e0 / 4 := ⟨_, rfl⟩
  obtain ⟨r4, hr4⟩ : ∃ r, r3 = 365 * e + r := ⟨r3 - 365 * e, by omega⟩
  refine ⟨a, b, c, e, r4, by omega, by omega, by omega, by omega, by omega, ?_⟩
  have x1 : D - 146097 * a = r1 := by omega
  have x2 : r1 - 36524 * b = r2 := by omega
  have x3 : r2 - 1461 * c = r3 := by omega
  have x4 : r3 - 365 * e = r4 := by omega
  simp only [absYearDay, secondsPerDay, daysPer400Years, daysPer100Years, daysPer4Years,
    Nat.shiftRight_eq_div_pow, hD]
  norm_num only
  simp only [ea, x1, eb0, ← hb, x2, ec, x3, ee0, ← he, x4]

theorem absYearDay_spec (abs : Nat) :
    ∃ y yday : Nat,
      absYearDay abs = ((y : Int) + absoluteZeroYear, yday) ∧
      daysSinceEpoch ((y : Int) + absoluteZeroYear) + yday = abs / 86400 ∧
      (yday < 365 ∨ (yday = 365 ∧ isLeap ((y : Int) + absoluteZeroYear) = true)) := by
  obtain ⟨a, b, c, e, yday, hD, hb, hc, he, hy, habs⟩ := year_cycles abs
  refine ⟨400 * a + 100 * b + 4 * c + e, yday, habs, ?_, ?_⟩
  · rw [daysSinceEpoch_offset, hD]
    omega
  · rw [isLeap_offset]
    omega

theorem daysBefore_values :
    daysBefore 0 = 0 ∧ daysBefore 1 = 31 ∧ daysBefore 2 = 59 ∧ daysBefore 3 = 90 ∧
    daysBefore 4 = 120 ∧ daysBefore 5 = 151 ∧ daysBefore 6 = 181 ∧ daysBefore 7 = 212 ∧
    daysBefore 8 = 243 ∧ daysBefore 9 = 273 ∧ daysBefore 10 = 304 ∧ daysBefore 11 = 334 ∧
    daysBefore 12 = 365 := by
  decide

theorem absDate_spec (abs : Nat) (year : Int) (yday : Nat)
    (habs : absYearDay abs = (year, yday))
    (h : yday < 365 ∨ (yday = 365 ∧ isLeap year = true)) :
    ∃ month day : Nat,
      absDate abs = (year, month, day) ∧ 1 ≤ month ∧ month ≤ 12 ∧ 1 ≤ day ∧
      day ≤ daysIn month year ∧
      daysBefore (month - 1) + (if isLeap year && decide (month ≥ 3) then 1 else 0) + (day - 1)
        = yday := by
  obtain ⟨v0, v1, v2, v3, v4, v5, v6, v7, v8, v9, v10, v11, v12⟩ := daysBefore_values
  unfold absDate daysIn
  rw [habs]
  simp only
  cases hl : isLeap year
  · -- common year
    have hy : yday < 365 := by
      rcases h with h | ⟨_, h⟩
      · exact h
      · rw [hl] at h
        cases h
    simp only [Bool.false_and, Bool.false_eq_true, if_false]
    obtain ⟨m, hm, em⟩ : ∃ q, (31 * q ≤ yday ∧ yday < 31 * q + 31) ∧ yday / 31 = q :=
      ⟨_, by omega, rfl⟩
    rw [em]
    have hm11 : m ≤ 11 := by omega
    interval_cases m <;> simp only [v0, v1, v2, v3, v4, v5, v6, v7, v8, v9, v10, v11, v12] <;>
      split <;> refine ⟨_, _, rfl, ?_⟩ <;>
      simp only [v0, v1, v2, v3, v4, v5, v6, v7, v8, v9, v10, v11, v12, Nat.add_sub_cancel] <;>
      simp <;> omega
  · -- leap year
    simp only [Bool.true_and]
    by_cases h59 : yday = 59
    · refine ⟨2, 29, ?_, by omega, by omega, by omega, by simp, ?_⟩
      · simp [h59]
      · simp [v1, h59]
    · have hne : (yday == 31 + 29 - 1) = false := by simpa using h59
      simp only [hne, Bool.false_eq_true, if_false, decide_eq_true_eq]
      obtain ⟨d, hd⟩ : ∃ d, d = if yday > 31 + 29 - 1 then yday - 1 else yday := ⟨_, rfl⟩
      have hd1 : d ≤ 364 ∧ (yday > 59 → d + 1 = yday) ∧ (yday < 59 → d = yday) := by
        rcases h with h | ⟨h, _⟩ <;> split at hd <;> omega
      rw [← hd]
      obtain ⟨m, hm, em⟩ : ∃ q, (31 * q ≤ d ∧ d < 31 * q + 31) ∧ d / 31 = q :=
        ⟨_, by omega, rfl⟩
      rw [em]
      have hm11 : m ≤ 11 := by omega
      interval_cases m <;> simp only [v0, v1, v2, v3, v4, v5, v6, v7, v8, v9, v10, v11, v12] <;>
        split <;> refine ⟨_, _, rfl, ?_⟩ <;>
        simp only [v0, v1, v2, v3, v4, v5, v6, v7, v8, v9, v10, v11, v12,
          Nat.add_sub_cancel] <;>
        simp <;> omega

theorem absClock_spec (abs : Nat) :
    ∃ hour min sec : Nat,
      absClock abs = (hour, min, sec) ∧ hour < 24 ∧ min < 60 ∧ sec < 60 ∧
      hour * 3600 + min * 60 + sec = abs % 86400 := by
  refine ⟨_, _, _, rfl, ?_, ?_, ?_, ?_⟩ <;> simp only [secondsPerDay] <;> omega

theorem daysIn_le (month : Nat) (year : Int) (h : month ≤ 12) : daysIn month year ≤ 31 := by
  obtain ⟨v0, v1, v2, v3, v4, v5, v6, v7, v8, v9, v10, v11, v12⟩ := daysBefore_values
  unfold daysIn
  split
  · omega
  · interval_cases month <;>
      simp only [v0, v1, v2, v3, v4, v5, v6, v7, v8, v9, v10, v11, v12] <;> omega

theorem Time.abs_local (t : Time)
    (hlo : -62167219200 ≤ t.sec + t.offset) (hhi : t.sec + t.offset < 253402300800) :
    (t.abs : Int) = t.sec + t.offset + (unixToInternal + internalToAbsolute) := by
  unfold Time.abs unixToInternal internalToAbsolute
  omega

/-- The fields `Time.Format` prints, for a time whose year in its own location
is in 0..9999: a valid date and clock time, and `time.Date` of them in UTC is
the second of the instant plus the offset of the location. -/
theorem local_fields (t : Time)
    (hlo : -62167219200 ≤ t.sec + t.offset) (hhi : t.sec + t.offset < 253402300800) :
    ∃ year month day hour min sec : Nat,
      absDate t.abs = ((year : Int), month, day) ∧ absClock t.abs = (hour, min, sec) ∧
      year ≤ 9999 ∧ 1 ≤ month ∧ month ≤ 12 ∧ 1 ≤ day ∧ day ≤ daysIn month year ∧
      hour < 24 ∧ min < 60 ∧ sec < 60 ∧
      dateUnix year month day hour min sec = t.sec + t.offset := by
  have habs := Time.abs_local t hlo hhi
  obtain ⟨a, b, c, e, yday, hD, hb, hc, he, hy, hyd⟩ := year_cycles t.abs
  obtain ⟨hour, min, sec, hclock, hh, hm, hs, hsum⟩ := absClock_spec t.abs
  have hdiv := Nat.div_add_mod t.abs 86400
  have hmod : t.abs % 86400 < 86400 := Nat.mod_lt _ (by decide)
  simp only [unixToInternal, internalToAbsolute] at habs
  -- the day count lies between 0000-01-01 and 9999-12-31
  have hDlo : 106751990353566 ≤ t.abs / 86400 := by omega
  have hDhi : t.abs / 86400 < 106751994005991 := by omega
  rw [hD] at hDlo hDhi
  -- hence the year lies in 0..9999
  have hylo : 292277022399 ≤ 400 * a + 100 * b + 4 * c + e := by
    rcases Nat.lt_trichotomy a 730692555 with ha | ha | ha
    · omega
    · subst ha
      interval_cases b <;> interval_cases e <;> omega
    · omega
  have hyhi : 400 * a + 100 * b + 4 * c + e ≤ 292277022399 + 9999 := by
    rcases Nat.lt_trichotomy a 730692580 with ha | ha | ha
    · omega
    · subst ha
      interval_cases b <;> interval_cases e <;> omega
    · omega
  obtain ⟨year, hyear⟩ : ∃ year : Nat, 400 * a + 100 * b + 4 * c + e = year + 292277022399 :=
    ⟨400 * a + 100 * b + 4 * c + e - 292277022399, by omega⟩
  have hcast : (((400 * a + 100 * b + 4 * c + e : Nat) : Int) + absoluteZeroYear) = (year : Int) := by
    unfold absoluteZeroYear
    omega
  have hleap : yday < 365 ∨ (yday = 365 ∧ isLeap (year : Int) = true) := by
    rw [← hcast, isLeap_offset]
    omega
  rw [hcast] at hyd
  obtain ⟨month, day, hdate, hm1, hm12, hd1, hdin, hdays⟩ :=
    absDate_spec t.abs year yday hyd hleap
  refine ⟨year, month, day, hour, min, sec, hdate, hclock, by omega, hm1, hm12, hd1, hdin,
    hh, hm, hs, ?_⟩
  have hse : daysSinceEpoch (year : Int)
      = 146097 * a + 36524 * b + 1461 * c + 365 * e := by
    rw [← hcast, daysSinceEpoch_offset]
    omega
  unfold dateUnix
  simp only [hse, secondsPerDay, unixToInternal, internalToAbsolute]
  have hadj : (if (isLeap (year : Int) && decide (month ≥ 3)) = true
      then 146097 * a + 36524 * b + 1461 * c + 365 * e + daysBefore (month - 1) + 1
      else 146097 * a + 36524 * b + 1461 * c + 365 * e + daysBefore (month - 1))
      = 146097 * a + 36524 * b + 1461 * c + 365 * e + daysBefore (month - 1)
        + (if (isLeap (year : Int) && decide (month ≥ 3)) = true then 1 else 0) := by
    split <;> rfl
  rw [hadj]
  generalize (if (isLeap (year : Int) && decide (month ≥ 3)) = true then 1 else 0) = adj at *
  generalize daysBefore (month - 1) = before at *
  push_cast
  omega

/-! ## `time`: the text of the fields -/

theorem appendIntDigits_lt (u : Nat) (acc : List Char) (h : u < 10) :
    appendIntDigits u acc = digitChar u :: acc := by
  rw [appendIntDigits, if_neg (by omega)]

theorem appendIntDigits_ge (u : Nat) (acc : List Char) (h : 10 ≤ u) :
    appendIntDigits u acc = appendIntDigits (u / 10) (digitChar (u % 10) :: acc) := by
  rw [appendIntDigits, if_pos h]
  have e : u - u / 10 * 10 = u % 10 := by omega
  rw [e]

theorem decimalField_two (n : Nat) :
    decimalField 2 n = [digitChar (n / 10 % 10), digitChar (n % 10)] := by
  simp [decimalField, List.range_succ]

theorem decimalField_three (n : Nat) :
    decimalField 3 n = [digitChar (n / 100 % 10), digitChar (n / 10 % 10), digitChar (n % 10)] := by
  simp [decimalField, List.range_succ]

theorem decimalField_four (n : Nat) :
    decimalField 4 n = [digitChar (n / 1000 % 10), digitChar (n / 100 % 10),
      digitChar (n / 10 % 10), digitChar (n % 10)] := by
  simp [decimalField, List.range_succ]

theorem digitChar_zero : digitChar 0 = '0' := by decide

theorem appendInt_two (b : List Char) (n : Nat) (h : n < 100) :
    appendInt b (n : Int) 2 = b ++ decimalField 2 n := by
  have hneg : ¬ ((n : Int) < 0) := by omega
  simp only [appendInt, hneg, if_false, Int.natAbs_ofNat, decimalField_two]
  by_cases h1 : n < 10
  · rw [appendIntDigits_lt n [] h1]
    have e0 : n / 10 % 10 = 0 := by omega
    have e1 : n % 10 = n := by omega
    rw [e0, e1, digitChar_zero]
    simp
  · rw [appendIntDigits_ge n [] (by omega), appendIntDigits_lt (n / 10) _ (by omega)]
    have e0 : n / 10 % 10 = n / 10 := by omega
    rw [e0]
    simp

theorem appendInt_four (b : List Char) (n : Nat) (h : n < 10000) :
    appendInt b (n : Int) 4 = b ++ decimalField 4 n := by
  have hneg : ¬ ((n : Int) < 0) := by omega
  simp only [appendInt, hneg, if_false, Int.natAbs_ofNat, decimalField_four]
  by_cases h1 : n < 10
  · rw [appendIntDigits_lt n [] h1]
    have e0 : n / 1000 % 10 = 0 := by omega
    have e1 : n / 100 % 10 = 0 := by omega
    have e2 : n / 10 % 10 = 0 := by omega
    have e3 : n % 10 = n := by omega
    rw [e0, e1, e2, e3, digitChar_zero]
    simp [List.replicate]
  · by_cases h2 : n < 100
    · rw [appendIntDigits_ge n [] (by omega), appendIntDigits_lt (n / 10) _ (by omega)]
      have e0 : n / 1000 % 10 = 0 := by omega
      have e1 : n / 100 % 10 = 0 := by omega
      have e2 : n / 10 % 10 = n / 10 := by omega
      rw [e0, e1, e2, digitChar_zero]
      simp [List.replicate]
    · by_cases h3 : n < 1000
      · rw [appendIntDigits_ge n [] (by omega), appendIntDigits_ge (n / 10) _ (by omega),
          appendIntDigits_lt (n / 10 / 10) _ (by omega)]
        have e0 : n / 1000 % 10 = 0 := by omega
        have e1 : n / 100 % 10 = n / 10 / 10 := by omega
        rw [e0, e1, digitChar_zero]
        simp [List.replicate]
      · rw [appendIntDigits_ge n [] (by omega), appendIntDigits_ge (n / 10) _ (by omega),
          appendIntDigits_ge (n / 10 / 10) _ (by omega),
          appendIntDigits_lt (n / 10 / 10 / 10) _ (by omega)]
        have e0 : n / 1000 % 10 = n / 10 / 10 / 10 := by omega
        have e1 : n / 100 % 10 = n / 10 / 10 % 10 := by omega
        rw [e0, e1]
        simp

theorem formatNano_three (b : List Char) (nanosec : Nat) :
    formatNano b nanosec 3 = b ++ ['.'] ++ decimalField 3 (nanosec / 1000000) := by
  have e0 : nanosec / 1000000 / 100 % 10 = nanosec / 100000000 % 10 := by omega
  have e1 : nanosec / 1000000 / 10 % 10 = nanosec / 10000000 % 10 := by omega
  simp [formatNano, decimalField_three, List.range_succ, e0, e1]

theorem Time.Format_eq (t : Time) (year month day hour min sec : Nat)
    (hdate : absDate t.abs = ((year : Int), month, day))
    (hclock : absClock t.abs = (hour, min, sec))
    (hy : year ≤ 9999) (hmo : month ≤ 12) (hd : day ≤ 31)
    (hh : hour < 24) (hmi : min < 60) (hs : sec < 60) :
    t.Format = timestampText year month day hour min sec (t.nsec.val / 1000000) := by
  simp only [Time.Format, Time.layoutChunks, List.foldl, appendChunk, hdate, hclock,
    timestampText]
  rw [appendInt_four _ _ (by omega), appendInt_two _ month (by omega),
    appendInt_two _ day (by omega), appendInt_two _ hour (by omega),
    appendInt_two _ min (by omega), appendInt_two _ sec (by omega),
    formatNano_three]
  simp

theorem timestampText_length (year month day hour min sec msec : Nat) :
    (timestampText year month day hour min sec msec).length = 24 := by
  simp [timestampText, decimalField, String.length]

theorem Time.Format_sample :
    (Time.mk 1704326400 0 0).Format = "2024-01-04T00:00:00.000Z" := by
  have hdate : absDate (Time.mk 1704326400 0 0).abs = (((2024 : Nat) : Int), 1, 4) := by
    decide
  have hclock : absClock (Time.mk 1704326400 0 0).abs = (0, 0, 0) := by
    decide
  rw [Time.Format_eq (Time.mk 1704326400 0 0) 2024 1 4 0 0 0 hdate hclock (by decide)
    (by decide) (by decide) (by decide) (by decide) (by decide)]
  decide


/-! ## The timestamp text, read back -/

theorem digitValue_digitChar (d : Nat) (h : d < 10) : digitValue (digitChar d) = some d := by
  interval_cases d <;> rfl

theorem decimalValue_two (n : Nat) (h : n < 100) :
    decimalValue [digitChar (n / 10 % 10), digitChar (n % 10)] = some n := by
  simp only [decimalValue, List.foldl, digitValue_digitChar (n / 10 % 10) (by omega),
    digitValue_digitChar (n % 10) (by omega), Option.some_bind, Option.map_some']
  congr 1
  omega

theorem decimalValue_three (n : Nat) (h : n < 1000) :
    decimalValue [digitChar (n / 100 % 10), digitChar (n / 10 % 10), digitChar (n % 10)]
      = some n := by
  simp only [decimalValue, List.foldl, digitValue_digitChar (n / 100 % 10) (by omega),
    digitValue_digitChar (n / 10 % 10) (by omega),
    digitValue_digitChar (n % 10) (by omega), Option.some_bind, Option.map_some']
  congr 1
  omega

theorem decimalValue_four (n : Nat) (h : n < 10000) :
    decimalValue [digitChar (n / 1000 % 10), digitChar (n / 100 % 10), digitChar (n / 10 % 10),
      digitChar (n % 10)] = some n := by
  simp only [decimalValue, List.foldl, digitValue_digitChar (n / 1000 % 10) (by omega),
    digitValue_digitChar (n / 100 % 10) (by omega),
    digitValue_digitChar (n / 10 % 10) (by omega),
    digitValue_digitChar (n % 10) (by omega), Option.some_bind, Option.map_some']
  congr 1
  omega

/-- Reading the text of valid fields gives the fields back. -/
theorem parseTimestamp_timestampText (year month day hour min sec msec : Nat)
    (hy : year ≤ 9999) (hm1 : 1 ≤ month) (hm12 : month ≤ 12) (hd1 : 1 ≤ day)
    (hd : day ≤ daysIn month year) (hh : hour < 24) (hmi : min < 60) (hs : sec < 60)
    (hms : msec < 1000) :
    parseTimestamp (timestampText year month day hour min sec msec)
      = some ⟨year, month, day, hour, min, sec, msec⟩ := by
  have hd31 := daysIn_le month year hm12
  have hvalid : (DateTime.mk year month day hour min sec msec).valid = true := by
    simp [DateTime.valid, hm1, hm12, hd1, hd, hh, hmi, hs]
  simp only [parseTimestamp, timestampText, decimalField_four, decimalField_three,
    decimalField_two, List.cons_append, List.nil_append, List.append_assoc, if_true,
    decimalValue_four year (by omega), decimalValue_two month (by omega),
    decimalValue_two day (by omega), decimalValue_two hour (by omega),
    decimalValue_two min (by omega), decimalValue_two sec (by omega),
    decimalValue_three msec hms, Option.some_bind, hvalid]

theorem Time.eq_of_fields (t : Time) (sec : Int) (nsec : Fin 1000000000) (offset : Int)
    (hsec : t.sec = sec) (hnsec : t.nsec.val = nsec.val) (hoffset : t.offset = offset) :
    t = Time.mk sec nsec offset := by
  rcases t with ⟨sec0, nsec0, off0⟩
  simp only at hsec hnsec hoffset
  rw [hsec, hoffset, Fin.ext hnsec]

/-- The text `Time.Format` gives for a time whose year in its own location is
in 0..9999: 24 characters, the text of a valid date and time, which are the
date and the clock of the time in its location; read as a UTC timestamp it
denotes the second of the time plus the offset of its location. -/
theorem Time.Format_denotes (t : Time)
    (hlo : -62167219200 ≤ t.sec + t.offset) (hhi : t.sec + t.offset < 253402300800) :
    ∃ f : DateTime,
      parseTimestamp t.Format = some f ∧
      t.Format = timestampText f.year f.month f.day f.hour f.min f.sec f.msec ∧
      t.Format.length = 24 ∧
      (f.year ≤ 9999 ∧ 1 ≤ f.month ∧ f.month ≤ 12 ∧ 1 ≤ f.day ∧ f.day ≤ daysIn f.month f.year ∧
        f.hour < 24 ∧ f.min < 60 ∧ f.sec < 60 ∧ f.msec < 1000 ∧
        absDate t.abs = ((f.year : Int), f.month, f.day) ∧
        absClock t.abs = (f.hour, f.min, f.sec)) ∧
      instantOf t.Format = some (t.sec + t.offset, t.nsec.val / 1000000) := by
  obtain ⟨year, month, day, hour, min, sec, hdate, hclock, hy, hm1, hm12, hd1, hdin, hh, hmi,
    hs, hunix⟩ := local_fields t hlo hhi
  have hd31 := daysIn_le month (year : Int) hm12
  have hfmt := Time.Format_eq t year month day hour min sec hdate hclock hy hm12
    (by omega) hh hmi hs
  have hms : t.nsec.val / 1000000 < 1000 := by
    have := t.nsec.isLt
    omega
  have hparse := parseTimestamp_timestampText year month day hour min sec
    (t.nsec.val / 1000000) hy hm1 hm12 hd1 hdin hh hmi hs hms
  refine ⟨⟨year, month, day, hour, min, sec, t.nsec.val / 1000000⟩, ?_, hfmt, ?_,
    ⟨hy, hm1, hm12, hd1, hdin, hh, hmi, hs, hms, hdate, hclock⟩, ?_⟩
  · rw [hfmt]
    exact hparse
  · rw [hfmt]
    exact timestampText_length _ _ _ _ _ _ _
  · rw [hfmt, instantOf, hparse, Option.map_some', hunix]

theorem Time.Format_zone :
    (Time.mk 1704322800 0 3600).Format = "2024-01-04T00:00:00.000Z" := by
  have hdate : absDate (Time.mk 1704322800 0 3600).abs = (((2024 : Nat) : Int), 1, 4) := by
    decide
  have hclock : absClock (Time.mk 1704322800 0 3600).abs = (0, 0, 0) := by
    decide
  rw [Time.Format_eq (Time.mk 1704322800 0 3600) 2024 1 4 0 0 0 hdate hclock (by decide)
    (by decide) (by decide) (by decide) (by decide) (by decide)]
  decide

theorem pathAccessTokenRead_zoneWorld :
    (pathAccessTokenRead zoneWorld sampleStorage).1 = .returned (some zoneResponse) none := by
  rfl

/-- C9, as amended: when `pathAccessTokenRead` succeeds and the expiry the STS
reported has a year in 0..9999 on the calendar of its own location, the
`expires` field of the response is the 24-character text
`YYYY-MM-DDTHH:MM:SS.mmmZ` (four digits of year, two each of month, day, hour,
minute and second, three of milliseconds, then a literal `Z`) of the date and
clock time of the expiry in the location of the reported time value: the text
is a valid calendar date and time, and read as a UTC timestamp it denotes the
second of the expiry plus the offset of that location, with the nanoseconds cut
to milliseconds. It denotes the instant of the expiry itself when that offset
is zero. For the UTC expiry 2024-01-04T00:00:00Z the field is
`2024-01-04T00:00:00.000Z`. -/
theorem expires_is_clock_time_of_expiry_location (w : World) (s : Storage) (resp : Response)
    (hyear : ∀ c req signer, w.stsIssue c req = .ok signer →
      -62167219200 ≤ signer.Expires.sec + signer.Expires.offset
        ∧ signer.Expires.sec + signer.Expires.offset < 253402300800)
    (h : (pathAccessTokenRead w s).1 = .returned (some resp) none) :
    ∃ c req signer text,
      w.stsIssue c req = .ok signer ∧
      Effect.stsIssue req ∈ (pathAccessTokenRead w s).2 ∧
      resp.Data.lookup "expires" = some (.str text) ∧
      text = signer.Expires.Format ∧
      text.length = 24 ∧
      (∃ f : DateTime,
        parseTimestamp text = some f ∧
        text = timestampText f.year f.month f.day f.hour f.min f.sec f.msec ∧
        f.year ≤ 9999 ∧ 1 ≤ f.month ∧ f.month ≤ 12 ∧ 1 ≤ f.day ∧ f.day ≤ daysIn f.month f.year ∧
        f.hour < 24 ∧ f.min < 60 ∧ f.sec < 60 ∧ f.msec < 1000 ∧
        absDate signer.Expires.abs = ((f.year : Int), f.month, f.day) ∧
        absClock signer.Expires.abs = (f.hour, f.min, f.sec)) ∧
      instantOf text
        = some (signer.Expires.sec + signer.Expires.offset, signer.Expires.nsec.val / 1000000) ∧
      (signer.Expires.offset = 0 →
        instantOf text = some (signer.Expires.sec, signer.Expires.nsec.val / 1000000)) ∧
      (signer.Expires.sec = 1704326400 → signer.Expires.nsec.val = 0 →
        signer.Expires.offset = 0 → text = "2024-01-04T00:00:00.000Z") := by
  obtain ⟨config, cp, kp, sg, u, c, signer, tok, _, _, _, _, hissue, _, hresp, htrace⟩ :=
    pathAccessTokenRead_success w s resp h
  obtain ⟨hlo, hhi⟩ := hyear c _ signer hissue
  obtain ⟨f, hparse, hfmt, hlen, hfields, hinst⟩ := Time.Format_denotes signer.Expires hlo hhi
  have hlookup : resp.Data.lookup "expires" = some (.str signer.Expires.Format) := by
    rw [hresp]
    rfl
  refine ⟨c, _, signer, signer.Expires.Format, hissue, ?_, hlookup, rfl, hlen,
    ⟨f, hparse, hfmt, hfields⟩, hinst, ?_, ?_⟩
  · rw [htrace]
    simp
  · intro hutc
    rw [hinst, hutc, Int.add_zero]
  · intro hsec hnsec hutc
    rw [Time.eq_of_fields signer.Expires 1704326400 0 0 hsec hnsec hutc]
    exact Time.Format_sample

theorem expires_is_clock_time_of_expiry_location_witness :
    (∀ c req signer, zoneWorld.stsIssue c req = .ok signer →
      -62167219200 ≤ signer.Expires.sec + signer.Expires.offset
        ∧ signer.Expires.sec + signer.Expires.offset < 253402300800) ∧
    (pathAccessTokenRead zoneWorld sampleStorage).1 = .returned (some zoneResponse) none ∧
    ∃ c req signer text,
      zoneWorld.stsIssue c req = .ok signer ∧
      Effect.stsIssue req ∈ (pathAccessTokenRead zoneWorld sampleStorage).2 ∧
      zoneResponse.Data.lookup "expires" = some (.str text) ∧
      text = signer.Expires.Format ∧
      text.length = 24 ∧
      (∃ f : DateTime,
        parseTimestamp text = some f ∧
        text = timestampText f.year f.month f.day f.hour f.min f.sec f.msec ∧
        f.year ≤ 9999 ∧ 1 ≤ f.month ∧ f.month ≤ 12 ∧ 1 ≤ f.day ∧ f.day ≤ daysIn f.month f.year ∧
        f.hour < 24 ∧ f.min < 60 ∧ f.sec < 60 ∧ f.msec < 1000 ∧
        absDate signer.Expires.abs = ((f.year : Int), f.month, f.day) ∧
        absClock signer.Expires.abs = (f.hour, f.min, f.sec)) ∧
      instantOf text
        = some (signer.Expires.sec + signer.Expires.offset, signer.Expires.nsec.val / 1000000) ∧
      (signer.Expires.offset = 0 →
        instantOf text = some (signer.Expires.sec, signer.Expires.nsec.val / 1000000)) ∧
      (signer.Expires.sec = 1704326400 → signer.Expires.nsec.val = 0 →
        signer.Expires.offset = 0 → text = "2024-01-04T00:00:00.000Z") :=
  have hyear : ∀ c req signer, zoneWorld.stsIssue c req = .ok signer →
      -62167219200 ≤ signer.Expires.sec + signer.Expires.offset
        ∧ signer.Expires.sec + signer.Expires.offset < 253402300800 := by
    intro c req signer h
    cases h
    decide
  ⟨hyear, pathAccessTokenRead_zoneWorld,
    expires_is_clock_time_of_expiry_location zoneWorld sampleStorage zoneResponse hyear
      pathAccessTokenRead_zoneWorld⟩

/-- C9, the claim as worded, fails: in the run of `zoneWorld` the STS reports
the expiry 2024-01-03T23:00:00Z as a time value of a location one hour east of
UTC; the read succeeds and its `expires` field is `2024-01-04T00:00:00.000Z`,
which denotes the instant one hour after the expiry. -/
theorem expires_claim_fails_for_zoned_expiry :
    ¬ ExpiresDenotesExpiry zoneWorld sampleStorage := by
  intro hclaim
  have hyear : ∀ c req signer, zoneWorld.stsIssue c req = .ok signer →
      -62167219200 ≤ signer.Expires.sec + signer.Expires.offset
        ∧ signer.Expires.sec + signer.Expires.offset < 253402300800 := by
    intro c req signer h
    cases h
    decide
  obtain ⟨c, req, signer, text, hissue, _, hlookup, _, hinst⟩ :=
    hclaim hyear zoneResponse pathAccessTokenRead_zoneWorld
  cases hissue
  have htext : text = "2024-01-04T00:00:00.000Z" := by
    have hl : zoneResponse.Data.lookup "expires" = some (.str zoneSigner.Expires.Format) := rfl
    rw [hl] at hlookup
    have hz : zoneSigner.Expires.Format = "2024-01-04T00:00:00.000Z" := Time.Format_zone
    rw [hz] at hlookup
    cases hlookup
    rfl
  subst htext
  have hdenotes : instantOf "2024-01-04T00:00:00.000Z" = some (1704326400, 0) := by
    decide
  rw [hdenotes] at hinst
  revert hinst
  decide

end VmwareVault
